import Mathlib

set_option maxRecDepth 40000

/-!
Verification of the format-translation engine of the `kicad-lcsc-manager`
plugin against its natural-language specification.

The Python sources are shallowly embedded: machine floats are modelled by
exact rationals (`ℚ`), Python exceptions by `Except PyErr`, dictionaries by
association lists or option-valued record fields, and Python `str` by Lean
`String` / `List Char`.  Each definition mirrors one Python function of the
repository; the mirrored function is named in its doc comment.
-/


namespace LcscManager

/-- Python exception kinds that the embedded code can raise. -/
inductive PyErr where
  | valueError
  | keyError
  | indexError
  | other
  deriving DecidableEq, Repr

/-- Decidable equality for `Except`, used to evaluate the embedded fallible
functions on concrete inputs. -/
instance {ε α : Type} [DecidableEq ε] [DecidableEq α] : DecidableEq (Except ε α) := fun a b =>
  match a, b with
  | .ok x, .ok y =>
    if h : x = y then .isTrue (by rw [h]) else .isFalse (fun he => h (Except.ok.inj he))
  | .error x, .error y =>
    if h : x = y then .isTrue (by rw [h]) else .isFalse (fun he => h (Except.error.inj he))
  | .ok _, .error _ => .isFalse Except.noConfusion
  | .error _, .ok _ => .isFalse Except.noConfusion

/-- Model of Python `s.replace(old, new)` for a single-character `old`
(every `replace` call in the converters uses a one-character pattern except
`replace("//", "")`, modelled separately): each occurrence of the character
is substituted independently. -/
def replaceChar (s : List Char) (p : Char) (rep : List Char) : List Char :=
  s.flatMap (fun c => if c = p then rep else [c])

/-- Model of `line.replace("//", "")` from
`Model3DConverter._convert_obj_to_wrl`: deletes each left-to-right,
non-overlapping occurrence of `//`. -/
def deleteDoubleSlash : List Char → List Char
  | [] => []
  | [c] => [c]
  | c :: d :: rest =>
    if c = '/' ∧ d = '/' then deleteDoubleSlash rest
    else c :: deleteDoubleSlash (d :: rest)

/-- Characters Python's `str.strip()` removes (the ASCII whitespace actually
occurring in the inputs in scope). -/
def isPySpace (c : Char) : Bool :=
  c = ' ' || c = '\t' || c = '\n' || c = '\r' || c = '\x0b' || c = '\x0c'

/-- Model of Python `s.strip()`. -/
def pyStrip (s : List Char) : List Char :=
  ((s.dropWhile isPySpace).reverse.dropWhile isPySpace).reverse

/-- Model of Python `s.strip()` on `String`. -/
def pyStripS (s : String) : String := ⟨pyStrip s.data⟩

/-- Digit test for the numeric parsers. -/
def isDigitChar (c : Char) : Bool := '0' ≤ c && c ≤ '9'

/-- Value of a digit list read in base 10. -/
def digitsVal (ds : List Char) : Nat :=
  ds.foldl (fun a c => a * 10 + (c.toNat - '0'.toNat)) 0

/-- Model of Python `int(s)` for decimal literals: optional surrounding
whitespace, optional sign, one or more digits; anything else raises
`ValueError`.  (Underscores and non-ASCII digits are outside the inputs in
scope and are not modelled.) -/
def pyInt (s : String) : Except PyErr Int := do
  let t := pyStrip s.data
  let (sign, ds) :=
    match t with
    | '-' :: rest => ((-1 : Int), rest)
    | '+' :: rest => ((1 : Int), rest)
    | _ => ((1 : Int), t)
  if ds ≠ [] ∧ ds.all isDigitChar then
    pure (sign * (digitsVal ds : Int))
  else
    throw PyErr.valueError

/-!
Exact rational arithmetic for the embedding.  The standard `ℚ` operations of
the library are deliberately opaque to reduction, so the embedded code
computes through `mkRat`, which the kernel evaluates; each helper implements
the textbook fraction operation the Python float operation performs (exactly,
see the `pyFloat` note on rounding).
-/

/-- `ℚ` addition, kernel-evaluable. -/
def qAdd (a b : ℚ) : ℚ := mkRat (a.num * b.den + b.num * a.den) (a.den * b.den)

/-- `ℚ` subtraction, kernel-evaluable. -/
def qSub (a b : ℚ) : ℚ := mkRat (a.num * b.den - b.num * a.den) (a.den * b.den)

/-- `ℚ` multiplication, kernel-evaluable. -/
def qMul (a b : ℚ) : ℚ := mkRat (a.num * b.num) (a.den * b.den)

/-- `ℚ` negation, kernel-evaluable. -/
def qNeg (a : ℚ) : ℚ := mkRat (-a.num) a.den

/-- `ℚ` division, kernel-evaluable.  Division by zero is never exercised by
the embedded code (the only divisors are fixed nonzero constants). -/
def qDiv (a b : ℚ) : ℚ :=
  mkRat (a.num * b.den * (if b.num < 0 then -1 else 1)) (a.den * b.num.natAbs)

/-- The rational `n / 10^k`, kernel-evaluable. -/
def qDecimal (n : Nat) (k : Nat) : ℚ := mkRat n ((10 : Nat) ^ k)

/-- Exponent part of the `float(s)` model. -/
def pyFloatExp (neg : Bool) (mant : ℚ) (t : List Char) : Except PyErr ℚ := do
  let (eneg, eds) :=
    match t with
    | '-' :: rest => (true, rest)
    | '+' :: rest => (false, rest)
    | _ => (false, t)
  if eds ≠ [] ∧ eds.all isDigitChar then
    let p : ℚ := mkRat ((10 : Nat) ^ digitsVal eds) 1
    let scaled := if eneg then qDiv mant p else qMul mant p
    pure (if neg then qNeg scaled else scaled)
  else
    throw PyErr.valueError

/-- Model of Python `float(s)` for finite decimal literals, as an exact
rational: optional surrounding whitespace, optional sign, digits with an
optional fractional part, optional decimal exponent.  `inf`/`nan` and other
special spellings are outside the inputs in scope.  The rounding of the
decimal literal to an IEEE double is not modelled; values are kept exact. -/
def pyFloat (s : String) : Except PyErr ℚ := do
  let t := pyStrip s.data
  let (neg, t1) :=
    match t with
    | '-' :: rest => (true, rest)
    | '+' :: rest => (false, rest)
    | _ => (false, t)
  let intDs := t1.takeWhile isDigitChar
  let t2 := t1.drop intDs.length
  let (fracDs, t3) :=
    match t2 with
    | '.' :: rest => (rest.takeWhile isDigitChar, rest.drop (rest.takeWhile isDigitChar).length)
    | _ => ([], t2)
  if intDs = [] ∧ fracDs = [] then throw PyErr.valueError
  else
    let mant : ℚ := qAdd (mkRat (digitsVal intDs) 1) (qDecimal (digitsVal fracDs) fracDs.length)
    match t3 with
    | [] => pure (if neg then qNeg mant else mant)
    | 'e' :: erest => pyFloatExp neg mant erest
    | 'E' :: erest => pyFloatExp neg mant erest
    | _ => throw PyErr.valueError

/-- Model of Python sequence indexing `l[i]` with an `int` index: non-negative
indices count from the front, negative indices from the back, anything out of
range raises `IndexError`. -/
def pyGetItem {α : Type} (l : List α) (i : Int) : Except PyErr α :=
  if 0 ≤ i ∧ i < (l.length : Int) then
    match l.get? i.toNat with
    | some a => pure a
    | none => throw PyErr.indexError
  else if -(l.length : Int) ≤ i ∧ i < 0 then
    match l.get? (l.length - (-i).toNat) with
    | some a => pure a
    | none => throw PyErr.indexError
  else
    throw PyErr.indexError

/-- Model of Python `l.insert(-1, x)`: the element is inserted before the last
position (for the empty list it is simply appended). -/
def pyInsertNeg1 {α : Type} (l : List α) (x : α) : List α :=
  l.take (l.length - 1) ++ x :: l.drop (l.length - 1)

/-- Model of Python `s.split(sep)` for a one-character separator (all `split`
calls in the converters use `"~"`, `" "` or `"\n"` except the
`split("usemtl")` modelled separately): every occurrence separates, empty
fields are kept. -/
def pySplitChar (s : List Char) (sep : Char) : List (List Char) :=
  s.splitOn sep

/-- Model of Python `s.splitlines()` for `\n`-separated text (the only line
ending occurring in the inputs in scope): like splitting on `"\n"` but
without a trailing empty field, and empty for the empty string. -/
def pySplitlines (s : String) : List String :=
  if s.data = [] then []
  else
    let parts := s.data.splitOn '\n'
    let parts := if parts.getLast? = some [] then parts.dropLast else parts
    parts.map (fun cs => ⟨cs⟩)

/-- Model of `obj_content.split("usemtl")` from
`Model3DConverter._convert_obj_to_wrl`: split at each left-to-right,
non-overlapping occurrence of the six-character separator `usemtl`. -/
def splitUsemtlAux (acc : List Char) : List Char → List (List Char)
  | 'u' :: 's' :: 'e' :: 'm' :: 't' :: 'l' :: rest => acc.reverse :: splitUsemtlAux [] rest
  | c :: rest => splitUsemtlAux (c :: acc) rest
  | [] => [acc.reverse]

/-- `obj_content.split("usemtl")` (see `splitUsemtlAux`). -/
def splitUsemtl (s : String) : List String :=
  (splitUsemtlAux [] s.data).map (fun cs => ⟨cs⟩)

/-- Model of Python `pat in s` (substring containment). -/
def containsSub (s pat : List Char) : Bool :=
  match s with
  | [] => pat.isEmpty
  | _ :: rest => pat.isPrefixOf s || containsSub rest pat

/-- Model of Python `s.startswith(pat)`. -/
def pyStartswith (s pat : String) : Bool :=
  pat.data.isPrefixOf s.data

/-- Insert-or-overwrite for the association lists modelling Python dicts
(assignment `d[k] = v` keeps the first insertion position of an existing key). -/
def dictInsert {α : Type} (m : List (String × α)) (k : String) (v : α) : List (String × α) :=
  if m.any (fun kv => kv.1 = k) then
    m.map (fun kv => if kv.1 = k then (k, v) else kv)
  else
    m ++ [(k, v)]

/-- Lookup in the association lists modelling Python dicts. -/
def dictFind {α : Type} (m : List (String × α)) (k : String) : Option α :=
  (m.find? (fun kv => kv.1 = k)).map Prod.snd

end LcscManager

namespace LcscManager

/-!
## Name sanitization

`SymbolConverter._get_symbol_name`, `SymbolConverter._get_footprint_reference`
and `FootprintConverter._get_footprint_name` all apply the same chain of
eight character substitutions to the name they build.
-/

/-- The shared substitution chain
`.replace(" ", "_").replace(".", "_").replace("/", "{slash}")`
`.replace("\\", "{backslash}").replace("<", "{lt}").replace(">", "{gt}")`
`.replace(":", "{colon}").replace('"', "{dblquote}")` on `List Char`. -/
def sanitizeList (s : List Char) : List Char :=
  replaceChar (replaceChar (replaceChar (replaceChar (replaceChar (replaceChar (replaceChar
    (replaceChar s ' ' ['_']) '.' ['_']) '/' "{slash}".data) '\\' "{backslash}".data)
    '<' "{lt}".data) '>' "{gt}".data) ':' "{colon}".data) '"' "{dblquote}".data

/-- The shared name sanitization on `String` (see `sanitizeList`). -/
def sanitizeName (s : String) : String := ⟨sanitizeList s.data⟩

/-- What the whole chain does to one character: the per-character substitution
table of the sanitization.  (None of the replacement texts contains a
character that a later stage of the chain substitutes, so the chain acts
character by character; this is proved in `sanitizeList_eq_flatMap`.) -/
def sanitizeChar (c : Char) : List Char :=
  if c = ' ' then ['_']
  else if c = '.' then ['_']
  else if c = '/' then "{slash}".data
  else if c = '\\' then "{backslash}".data
  else if c = '<' then "{lt}".data
  else if c = '>' then "{gt}".data
  else if c = ':' then "{colon}".data
  else if c = '"' then "{dblquote}".data
  else [c]

/-- The six characters whose substitution token starts with `{`. -/
def bracketSpecials : List Char := ['/', '\\', '<', '>', ':', '"']

/-- The letter after `{` in the substitution token of a bracket-special
character; these six letters are pairwise distinct. -/
def sigChar (c : Char) : Char :=
  if c = '/' then 's'
  else if c = '\\' then 'b'
  else if c = '<' then 'l'
  else if c = '>' then 'g'
  else if c = ':' then 'c'
  else 'd'

/-- Characters over which the amended injectivity claim is stated: printable
ASCII, excluding the two characters that both map to `_` (space and `.`),
the character `_` image collisions aside, and the two brace characters with
which substitution tokens could be forged. -/
def allowedChar (c : Char) : Prop :=
  32 ≤ c.toNat ∧ c.toNat ≤ 126 ∧ c ≠ ' ' ∧ c ≠ '.' ∧ c ≠ '{' ∧ c ≠ '}'

instance (c : Char) : Decidable (allowedChar c) := by
  unfold allowedChar; infer_instance

end LcscManager

namespace LcscManager

/-!
## Preview shape decoding (`preview/symbol_preview.py`)

`SymbolPreviewRenderer._parse_shapes` splits each raw EasyEDA line on `~`,
dispatches on the opcode, and collects the records the per-opcode parsers
return; parse failures inside a parser (caught `ValueError`/`IndexError`,
or any exception caught by the per-line handler) yield no record.
-/

/-- Model of Python `s.split()` (no argument): split on whitespace runs,
discarding empty fields. -/
def pySplitWs (s : String) : List String :=
  ((s.data.splitOnP isPySpace).filter (fun w => !w.isEmpty)).map (fun cs => ⟨cs⟩)

/-- The records `_parse_rectangle` / `_parse_ellipse` / `_parse_pin` /
`_parse_polyline` / `_parse_polygon` produce (the `dict`s of the source,
as a tagged union). -/
inductive PShape where
  | rectangle (coords : ℚ × ℚ × ℚ × ℚ) (fill : Bool)
  | ellipse (coords : ℚ × ℚ × ℚ × ℚ) (fill : Bool)
  | pin (coords : ℚ × ℚ × ℚ × ℚ)
  | polyline (points : List (ℚ × ℚ))
  | polygon (points : List (ℚ × ℚ)) (fill : Bool)
  deriving DecidableEq, Repr

/-- `SymbolPreviewRenderer._mil_to_px`: multiply by the preview scale `0.2`. -/
def milToPx (v : ℚ) : ℚ := qMul v (mkRat 2 10)

/-- `SymbolPreviewRenderer._parse_rectangle`. -/
def parseRectangle (args : List String) (tr : ℚ × ℚ) : Option PShape :=
  if args.length < 4 then none
  else do
    let a0 ← args.get? 0
    let a1 ← args.get? 1
    let a2 ← args.get? 2
    let a3 ← args.get? 3
    let x0 ← (pyFloat a0).toOption
    let y0 ← (pyFloat a1).toOption
    let w0 ← (pyFloat a2).toOption
    let h0 ← (pyFloat a3).toOption
    let x := milToPx (qSub x0 tr.1)
    let y := milToPx (qSub y0 tr.2)
    let w := milToPx w0
    let h := milToPx h0
    some (.rectangle (x, y, qAdd x w, qAdd y h)
      (decide (8 < args.length ∧ args.get? 8 ≠ some "none")))

/-- `SymbolPreviewRenderer._parse_ellipse` (its record carries `fill: False`). -/
def parseEllipse (args : List String) (tr : ℚ × ℚ) : Option PShape :=
  if args.length < 4 then none
  else do
    let a0 ← args.get? 0
    let a1 ← args.get? 1
    let a2 ← args.get? 2
    let a3 ← args.get? 3
    let cx0 ← (pyFloat a0).toOption
    let cy0 ← (pyFloat a1).toOption
    let rx0 ← (pyFloat a2).toOption
    let ry0 ← (pyFloat a3).toOption
    let cx := milToPx (qSub cx0 tr.1)
    let cy := milToPx (qSub cy0 tr.2)
    let rx := milToPx rx0
    let ry := milToPx ry0
    some (.ellipse (qSub cx rx, qSub cy ry, qAdd cx rx, qAdd cy ry) false)

/-- `SymbolPreviewRenderer._parse_pin`: the pin is drawn as a 40-pixel line
from `(x, y)`, in the direction selected by the declared rotation
(`0` right, `90` down, `180` left, anything else up); a missing third field
defaults the rotation to `0`. -/
def parsePin (args : List String) (tr : ℚ × ℚ) : Option PShape :=
  if args.length < 2 then none
  else do
    let a0 ← args.get? 0
    let a1 ← args.get? 1
    let x0 ← (pyFloat a0).toOption
    let y0 ← (pyFloat a1).toOption
    let x := milToPx (qSub x0 tr.1)
    let y := milToPx (qSub y0 tr.2)
    let rotation ←
      if 2 < args.length then do
        let a2 ← args.get? 2
        (pyFloat a2).toOption
      else some (mkRat 0 1)
    let len : ℚ := mkRat 40 1
    let coords :=
      if rotation = mkRat 0 1 then (x, y, qAdd x len, y)
      else if rotation = mkRat 90 1 then (x, y, x, qAdd y len)
      else if rotation = mkRat 180 1 then (x, y, qSub x len, y)
      else (x, y, x, qSub y len)
    some (.pin coords)

/-- Pair up a flat coordinate list, mirroring the
`for i in range(0, len(coords), 2): if i + 1 < len(coords)` loop of
`_parse_polyline` (a trailing odd element is dropped). -/
def pairUp {α : Type} : List α → List (α × α)
  | a :: b :: rest => (a, b) :: pairUp rest
  | _ => []

/-- `SymbolPreviewRenderer._parse_polyline`. -/
def parsePolyline (args : List String) (tr : ℚ × ℚ) : Option PShape :=
  if args.length < 1 then none
  else do
    let pointsStr ← args.get? 0
    let coords := pySplitWs pointsStr
    let points ← (pairUp coords).mapM (fun sc => do
      let x ← (pyFloat sc.1).toOption
      let y ← (pyFloat sc.2).toOption
      some (milToPx (qSub x tr.1), milToPx (qSub y tr.2)))
    if points.length < 2 then none
    else some (.polyline points)

/-- `SymbolPreviewRenderer._parse_polygon`: parse as a polyline, then retag
the record as a filled polygon. -/
def parsePolygon (args : List String) (tr : ℚ × ℚ) : Option PShape :=
  match parsePolyline args tr with
  | some (.polyline pts) => some (.polygon pts true)
  | r => r

/-- The opcode of a raw shape line: the field before the first `~`. -/
def lineOpcode (line : String) : String :=
  (((line.data.splitOn '~').map (fun cs => (⟨cs⟩ : String))).headD "")

/-- The opcodes `_parse_shapes` dispatches on. -/
def knownOpcodes : List String := ["R", "E", "P", "PL", "PG"]

/-- One iteration of the `_parse_shapes` loop: split the line on `~`,
dispatch on the opcode, yield the parsed record if any.  Unrecognized
opcodes yield nothing. -/
def parseShapeLine (tr : ℚ × ℚ) (line : String) : Option PShape :=
  match (line.data.splitOn '~').map (fun cs => (⟨cs⟩ : String)) with
  | [] => none
  | ty :: rest =>
    if ty = "R" then parseRectangle rest tr
    else if ty = "E" then parseEllipse rest tr
    else if ty = "P" then parsePin rest tr
    else if ty = "PL" then parsePolyline rest tr
    else if ty = "PG" then parsePolygon rest tr
    else none

/-- `SymbolPreviewRenderer._parse_shapes`: parse every line, keep the
non-`None` records, in line order. -/
def parseShapes (shapeArray : List String) (tr : ℚ × ℚ) : List PShape :=
  shapeArray.filterMap (parseShapeLine tr)

end LcscManager

namespace LcscManager

/-!
## Symbol conversion (`converters/symbol_converter.py`)
-/

/-- The component-metadata dict (`component_info`).  Only the keys the
converters read are modelled; a `none` field is an absent key.  Present
values are strings (the hypothesis of the error-handling claim); `pfx`
models the `"prefix"` entry. -/
structure ComponentInfo where
  name : Option String := none
  pfx : Option String := none
  description : Option String := none
  datasheet : Option String := none
  manufacturer : Option String := none
  lcscId : Option String := none
  package : Option String := none
  deriving DecidableEq, Repr

/-- The `head` dict of a `dataStr` (only `x` and `y` are read); values are
kept as the literal text `float()` receives. -/
structure HeadData where
  x : Option String := none
  y : Option String := none
  deriving DecidableEq, Repr

/-- A `dataStr` dict: the raw shape lines and the drawing head. -/
structure DataStr where
  shape : Option (List String) := none
  head : Option HeadData := none
  deriving DecidableEq, Repr

/-- The `packageDetail` dict (only its `dataStr` is read). -/
structure PackageDetail where
  dataStr : Option DataStr := none
  deriving DecidableEq, Repr

/-- The EasyEDA API response (`easyeda_data`), to the depth the converters
read it. -/
structure EasyedaData where
  dataStr : Option DataStr := none
  packageDetail : Option PackageDetail := none
  deriving DecidableEq, Repr

/-- The dispatch table `symbol_handlers.handlers` of the
`jlc2kicad.symbol_handlers` module (imported by the converter but not under
`src/`): opcode to handler.  A handler receives the fields after the opcode
and the head translation, and either raises or returns the drawing text it
appends to `kicad_symbol.drawing`. -/
def SymbolHandlers : Type := String → Option (List String → ℚ × ℚ → Except PyErr String)

/-- `SymbolConverter._get_symbol_name`: the sanitized `description`. -/
def getSymbolName (info : ComponentInfo) : String :=
  sanitizeName (info.description.getD "Unknown")

/-- The reference designator read by `SymbolConverter.convert`:
`component_info.get("prefix", "U").replace("?", "")`. -/
def getReference (info : ComponentInfo) : String :=
  ⟨replaceChar (info.pfx.getD "U").data '?' []⟩

/-- `SymbolConverter._get_footprint_reference`: sanitized package appended to
the LCSC id, qualified by the configured footprint library nickname. -/
def getFootprintReference (libNickname : String) (info : ComponentInfo) : String :=
  let lcscId := info.lcscId.getD "Unknown"
  let package := sanitizeName (info.package.getD "Unknown")
  libNickname ++ ":" ++ lcscId ++ "_" ++ package

/-- The `complete_symbol` f-string of
`SymbolConverter._create_symbol_from_easyeda`. -/
def completeSymbolText (symbolName reference description footprintName datasheet
    lcscId manufacturer drawing : String) : String :=
  "(kicad_symbol_lib\n  (version 20241209)\n  (generator \"kicad_lcsc_manager\")\n" ++
  "  (generator_version \"1.0\")\n  (symbol \"" ++ symbolName ++ "\"\n" ++
  "    (exclude_from_sim no)\n    (in_bom yes)\n    (on_board yes)\n" ++
  "    (property \"Reference\" \"" ++ reference ++ "\"\n      (at 0 1.27 0)\n" ++
  "      (effects\n        (font (size 1.27 1.27))\n      )\n    )\n" ++
  "    (property \"Value\" \"" ++ description ++ "\"\n      (at 0 -2.54 0)\n" ++
  "      (effects\n        (font (size 1.27 1.27))\n      )\n    )\n" ++
  "    (property \"Footprint\" \"" ++ footprintName ++ "\"\n      (at 0 -10.16 0)\n" ++
  "      (effects\n        (font (size 1.27 1.27))\n        (hide yes)\n      )\n    )\n" ++
  "    (property \"Datasheet\" \"" ++ datasheet ++ "\"\n      (at -2.286 0.127 0)\n" ++
  "      (effects\n        (font (size 1.27 1.27))\n        (hide yes)\n      )\n    )\n" ++
  "    (property \"Description\" \"" ++ description ++ "\"\n      (at 0 0 0)\n" ++
  "      (effects\n        (font (size 1.27 1.27))\n        (hide yes)\n      )\n    )\n" ++
  "    (property \"LCSC\" \"" ++ lcscId ++ "\"\n      (at 0 0 0)\n" ++
  "      (effects\n        (font (size 1.27 1.27))\n        (hide yes)\n      )\n    )\n" ++
  "    (property \"Manufacturer\" \"" ++ manufacturer ++ "\"\n      (at 0 0 0)\n" ++
  "      (effects\n        (font (size 1.27 1.27))\n        (hide yes)\n      )\n    )" ++
  drawing ++ "\n  )\n)\n"

/-- `SymbolConverter._create_placeholder_symbol` (the fallback document). -/
def createPlaceholderSymbol (symbolName reference value description datasheet
    manufacturer lcscId footprint : String) : String :=
  "(kicad_symbol_lib\n  (version 20241209)\n  (generator \"kicad_lcsc_manager\")\n" ++
  "  (generator_version \"1.0\")\n  (symbol \"" ++ symbolName ++ "\"\n" ++
  "    (pin_names (offset 1.016))\n    (exclude_from_sim no)\n    (in_bom yes)\n" ++
  "    (on_board yes)\n" ++
  "    (property \"Reference\" \"" ++ reference ++ "\"\n      (at 0 5.08 0)\n" ++
  "      (effects\n        (font (size 1.27 1.27))\n      )\n    )\n" ++
  "    (property \"Value\" \"" ++ value ++ "\"\n      (at 0 -5.08 0)\n" ++
  "      (effects\n        (font (size 1.27 1.27))\n      )\n    )\n" ++
  "    (property \"Footprint\" \"" ++ footprint ++ "\"\n      (at 0 -7.62 0)\n" ++
  "      (effects\n        (font (size 1.27 1.27))\n        (hide yes)\n      )\n    )\n" ++
  "    (property \"Datasheet\" \"" ++ datasheet ++ "\"\n      (at 0 0 0)\n" ++
  "      (effects\n        (font (size 1.27 1.27))\n        (hide yes)\n      )\n    )\n" ++
  "    (property \"Description\" \"" ++ description ++ "\"\n      (at 0 0 0)\n" ++
  "      (effects\n        (font (size 1.27 1.27))\n        (hide yes)\n      )\n    )\n" ++
  "    (property \"Manufacturer\" \"" ++ manufacturer ++ "\"\n      (at 0 -10.16 0)\n" ++
  "      (effects\n        (font (size 1.27 1.27))\n        (hide yes)\n      )\n    )\n" ++
  "    (property \"LCSC\" \"" ++ lcscId ++ "\"\n      (at 0 -12.7 0)\n" ++
  "      (effects\n        (font (size 1.27 1.27))\n        (hide yes)\n      )\n    )\n" ++
  "    (symbol \"" ++ symbolName ++ "_0_1\"\n      (rectangle\n        (start -5.08 3.81)\n" ++
  "        (end 5.08 -3.81)\n        (stroke\n          (width 0.254)\n          (type default)\n" ++
  "        )\n        (fill\n          (type background)\n        )\n      )\n    )\n" ++
  "    (symbol \"" ++ symbolName ++ "_1_1\"\n      (pin unspecified line\n" ++
  "        (at -7.62 0 0)\n        (length 2.54)\n        (name \"1\"\n          (effects\n" ++
  "            (font (size 1.27 1.27))\n          )\n        )\n        (number \"1\"\n" ++
  "          (effects\n            (font (size 1.27 1.27))\n          )\n        )\n      )\n" ++
  "      (pin unspecified line\n        (at 7.62 0 180)\n        (length 2.54)\n" ++
  "        (name \"2\"\n          (effects\n            (font (size 1.27 1.27))\n          )\n" ++
  "        )\n        (number \"2\"\n          (effects\n            (font (size 1.27 1.27))\n" ++
  "          )\n        )\n      )\n    )\n  )\n)\n"

/-- The per-line handler dispatch loop of
`SymbolConverter._create_symbol_from_easyeda`: split each raw line on `~`,
dispatch the opcode through the handler table, append the handler's drawing
text; a raising handler is caught by the loop's `try`/`except` and its line
is skipped; an unknown opcode is skipped. -/
def symbolDrawingLoop (handlers : SymbolHandlers) (tr : ℚ × ℚ)
    (shape : List String) : String :=
  shape.foldl (fun acc line =>
    match (line.data.splitOn '~').map (fun cs => (⟨cs⟩ : String)) with
    | [] => acc
    | model :: rest =>
      match handlers model with
      | some h =>
        match h rest tr with
        | .ok t => acc ++ t
        | .error _ => acc
      | none => acc) ""

/-- `SymbolConverter._create_symbol_from_easyeda`: raises `ValueError` when
`dataStr` or its `shape` is missing, `KeyError`/`ValueError` for a missing or
malformed head coordinate, otherwise assembles the drawing unit and the
property blocks. -/
def createSymbolFromEasyeda (handlers : SymbolHandlers) (libNickname : String)
    (d : EasyedaData) (symbolName reference : String) (info : ComponentInfo) :
    Except PyErr String := do
  match d.dataStr with
  | none => throw PyErr.valueError
  | some ds =>
    match ds.shape with
    | none => throw PyErr.valueError
    | some shape =>
      match ds.head with
      | none => throw PyErr.keyError
      | some h =>
        match h.x, h.y with
        | some hx, some hy => do
          let tx ← pyFloat hx
          let ty ← pyFloat hy
          let drawing := "\n    (symbol \"" ++ symbolName ++ "_1_1\"" ++
            symbolDrawingLoop handlers (tx, ty) shape ++ "\n    )"
          pure (completeSymbolText symbolName reference (info.description.getD "")
            (getFootprintReference libNickname info) (info.datasheet.getD "")
            (info.lcscId.getD "") (info.manufacturer.getD "") drawing)
        | _, _ => throw PyErr.keyError

/-- `SymbolConverter.convert`: try the real conversion; any exception is
caught and the placeholder document is returned instead.  The result is of
exception-carrying type to record that the entry point itself could in
principle raise — the error-handling claim asserts it never does. -/
def symbolConvert (handlers : SymbolHandlers) (libNickname : String)
    (d : EasyedaData) (info : ComponentInfo) : Except PyErr String :=
  match createSymbolFromEasyeda handlers libNickname d (getSymbolName info)
    (getReference info) info with
  | .ok s => .ok s
  | .error _ =>
    .ok (createPlaceholderSymbol (getSymbolName info) (getReference info)
      (info.description.getD "Unknown") (info.description.getD "")
      (info.datasheet.getD "") (info.manufacturer.getD "")
      (info.lcscId.getD "") (getFootprintReference libNickname info))

end LcscManager

namespace LcscManager

/-!
## Footprint conversion (`converters/footprint_converter.py`)

The real conversion path builds a `KicadModTree.Footprint` object; that
library is an external dependency, so its node objects are modelled as a
list of elements and its serializer as a deterministic rendering of them.
The `footprint_handlers` module (imported from `jlc2kicad` but not under
`src/`) is modelled as an abstract dispatch table, like `symbol_handlers`.
-/

/-- A node of the `KicadModTree` footprint object: the conversion code only
inspects pads (for the through-hole test) and appends texts and a
translation; everything else a handler may append is opaque. -/
inductive FpElem where
  | pad (isTht : Bool)
  | text (kind content : String) (atX atY : ℚ) (layer : String)
  | translation (x y : ℚ)
  | opaque2 (tag : String)
  deriving DecidableEq, Repr

/-- The mutable state a footprint handler receives: the accumulated node
list of the `Footprint` object and the `FootprintInfo` bounding-box record. -/
structure FpState where
  elems : List FpElem := []
  maxX : ℚ := mkRat 10000 1
  maxY : ℚ := mkRat 10000 1
  minX : ℚ := mkRat 10000 1
  minY : ℚ := mkRat 10000 1
  deriving DecidableEq, Repr

/-- The dispatch table `footprint_handlers.handlers` (module not under
`src/`): opcode to handler over the footprint state. -/
def FpHandlers : Type := String → Option (List String → FpState → Except PyErr FpState)

/-- Modelled from the spec: `footprint_handlers.mil2mm` (the module is not
under `src/`).  Unit scaling is "a thin multiplication applied at decode
time" (§4.2); the upstream scale maps EasyEDA units to millimetres by
dividing by `3.937`. -/
def mil2mm (q : ℚ) : ℚ := qDiv q (mkRat 3937 1000)

/-- `FootprintConverter._get_footprint_name`: LCSC id joined to the
sanitized package string. -/
def getFootprintName (info : ComponentInfo) : String :=
  (info.lcscId.getD "Unknown") ++ "_" ++ sanitizeName (info.package.getD "Unknown")

/-- `FootprintConverter._create_placeholder_footprint` (the fallback
document). -/
def createPlaceholderFootprint (footprintName description package lcscId : String) : String :=
  "(footprint \"" ++ footprintName ++
  "\" (version 20211014) (generator kicad_lcsc_manager)\n  (layer \"F.Cu\")\n" ++
  "  (descr \"" ++ package ++ "\")\n  (tags \"" ++ package ++ " LCSC:" ++ lcscId ++ "\")\n" ++
  "  (attr smd)\n" ++
  "  (fp_text reference \"REF**\" (at 0 -2.5) (layer \"F.SilkS\")\n" ++
  "    (effects (font (size 1 1) (thickness 0.15)))\n  )\n" ++
  "  (fp_text value \"" ++ footprintName ++ "\" (at 0 2.5) (layer \"F.Fab\")\n" ++
  "    (effects (font (size 1 1) (thickness 0.15)))\n  )\n" ++
  "  (fp_text user \"" ++ package ++ "\" (at 0 0) (layer \"F.Fab\")\n" ++
  "    (effects (font (size 0.8 0.8) (thickness 0.12)))\n  )\n" ++
  "  (fp_line (start -1.5 -1) (end 1.5 -1) (layer \"F.SilkS\") (width 0.12))\n" ++
  "  (fp_line (start -1.5 1) (end 1.5 1) (layer \"F.SilkS\") (width 0.12))\n" ++
  "  (fp_line (start -2 -1.5) (end 2 -1.5) (layer \"F.CrtYd\") (width 0.05))\n" ++
  "  (fp_line (start -2 1.5) (end -2 -1.5) (layer \"F.CrtYd\") (width 0.05))\n" ++
  "  (fp_line (start 2 -1.5) (end 2 1.5) (layer \"F.CrtYd\") (width 0.05))\n" ++
  "  (fp_line (start 2 1.5) (end -2 1.5) (layer \"F.CrtYd\") (width 0.05))\n" ++
  "  (fp_rect (start -1.2 -0.8) (end 1.2 0.8) (layer \"F.Fab\") (width 0.1) (fill none))\n" ++
  "  (pad \"1\" smd rect (at -1 0) (size 0.8 1.2) (layers \"F.Cu\" \"F.Paste\" \"F.Mask\"))\n" ++
  "  (pad \"2\" smd rect (at 1 0) (size 0.8 1.2) (layers \"F.Cu\" \"F.Paste\" \"F.Mask\"))\n" ++
  "  (model \"$\x7bKIPRJMOD\x7d/libs/lcsc/3dmodels/" ++ lcscId ++ ".step\"\n" ++
  "    (offset (xyz 0 0 0))\n    (scale (xyz 1 1 1))\n    (rotate (xyz 0 0 0))\n  )\n)\n"

/-- The serialization performed by the external
`KicadFileHandler(kicad_mod).serialize()`: abstracted to a deterministic
rendering of the footprint name, description, tags, attribute and node list
(its exact text is outside the engine; no claim depends on it). -/
def serializeFootprint (footprintName description tags attrStr : String)
    (elems : List FpElem) : String :=
  "(footprint \"" ++ footprintName ++ "\" (descr \"" ++ description ++
  "\") (tags \"" ++ tags ++ "\") (attr " ++ attrStr ++ ")" ++
  String.join (elems.map (fun e =>
    match e with
    | .pad tht => if tht then " (pad tht)" else " (pad smd)"
    | .text kind content x y layer =>
      " (fp_text " ++ kind ++ " \"" ++ content ++ "\" (at " ++ toString x.num ++
      "/" ++ toString x.den ++ " " ++ toString y.num ++ "/" ++ toString y.den ++
      ") (layer \"" ++ layer ++ "\"))"
    | .translation x y =>
      " (translation " ++ toString x.num ++ "/" ++ toString x.den ++ " " ++
      toString y.num ++ "/" ++ toString y.den ++ ")"
    | .opaque2 tag => " (" ++ tag ++ ")")) ++ ")"

/-- The per-line handler dispatch loop of
`FootprintConverter._create_footprint_from_easyeda`: like the symbol loop, a
raising handler is caught per element and its line skipped, an unknown
opcode is skipped. -/
def footprintShapeLoop (handlers : FpHandlers) (st0 : FpState)
    (shape : List String) : FpState :=
  shape.foldl (fun st line =>
    match (line.data.splitOn '~').map (fun cs => (⟨cs⟩ : String)) with
    | [] => st
    | model :: rest =>
      match handlers model with
      | some h =>
        match h rest st with
        | .ok st' => st'
        | .error _ => st
      | none => st) st0

/-- `FootprintConverter._create_footprint_from_easyeda`: structure checks
(`ValueError`), head coordinates (`KeyError`/`ValueError`), handler loop,
through-hole classification over the accumulated pads, translation insert,
bounding-box shift, the three text nodes, then serialization. -/
def createFootprintFromEasyeda (handlers : FpHandlers) (d : EasyedaData)
    (footprintName : String) (info : ComponentInfo) : Except PyErr String := do
  match d.packageDetail with
  | none => throw PyErr.valueError
  | some pd =>
    match pd.dataStr with
    | none => throw PyErr.valueError
    | some ds =>
      match ds.shape with
      | none => throw PyErr.valueError
      | some shape =>
        match ds.head with
        | none => throw PyErr.keyError
        | some h =>
          match h.x, h.y with
          | some hx, some hy => do
            let tx ← pyFloat hx
            let ty ← pyFloat hy
            let st := footprintShapeLoop handlers
              { maxX := qNeg (mkRat 10000 1), maxY := qNeg (mkRat 10000 1),
                minX := mkRat 10000 1, minY := mkRat 10000 1 } shape
            let tht := st.elems.any (fun e =>
              match e with
              | .pad isTht => isTht
              | _ => false)
            let attrStr := if tht then "through_hole" else "smd"
            let elems := FpElem.translation (qNeg (mil2mm tx)) (qNeg (mil2mm ty)) :: st.elems
            let maxX := qSub st.maxX (mil2mm tx)
            let maxY := qSub st.maxY (mil2mm ty)
            let minX := qSub st.minX (mil2mm tx)
            let minY := qSub st.minY (mil2mm ty)
            let cx := qDiv (qAdd minX maxX) (mkRat 2 1)
            let cy := qDiv (qAdd minY maxY) (mkRat 2 1)
            let elems := elems ++
              [FpElem.text "reference" "REF**" cx (qSub minY (mkRat 2 1)) "F.SilkS",
               FpElem.text "user" "$\x7bREFERENCE\x7d" cx cy "F.Fab",
               FpElem.text "value" footprintName cx (qAdd maxY (mkRat 2 1)) "F.Fab"]
            pure (serializeFootprint footprintName (footprintName ++ " footprint")
              (footprintName ++ " footprint " ++ info.lcscId.getD "") attrStr elems)
          | _, _ => throw PyErr.keyError

/-- `FootprintConverter.convert`: when `KicadModTree` and the handler module
are importable the real conversion is tried, any exception falling back to
the placeholder; otherwise the placeholder is produced directly. -/
def footprintConvert (modTreeAvailable : Bool) (handlers : Option FpHandlers)
    (d : EasyedaData) (info : ComponentInfo) : Except PyErr String :=
  let footprintName := getFootprintName info
  let placeholder := createPlaceholderFootprint footprintName
    (info.description.getD "") (info.package.getD "Unknown") (info.lcscId.getD "")
  match modTreeAvailable, handlers with
  | true, some hs =>
    match createFootprintFromEasyeda hs d footprintName info with
    | .ok s => .ok s
    | .error _ => .ok placeholder
  | _, _ => .ok placeholder

/-!
## `library/library_manager.py`: the caller-visible import result

`LibraryManager.import_component` returns a dict with exactly the keys
`symbol`, `footprint`, `model_3d`, `success`, `errors`.  The symbol and
footprint entries receive the *names* returned by `_import_symbol` /
`_import_footprint`; the converted (or fallback) text itself is written to
the library files and is not part of the returned dict.  File persistence
(`save_to_library`, library-table updates) is abstracted as succeeding, and
the 3-D branch (network plus file I/O) is modelled only for
`import_3d=False`, the setting the claims exercise.
-/

/-- The result dict of `LibraryManager.import_component`. -/
structure ImportResults where
  symbol : Option String
  footprint : Option String
  model3d : Option String
  success : Bool
  errors : List String
  deriving DecidableEq, Repr

/-- `LibraryManager._import_symbol`: convert (the text is written to the
symbol library file — a side effect, returned here as the first component
for inspection), then return the symbol *name*. -/
def importSymbolStep (handlers : SymbolHandlers) (libNickname : String)
    (d : EasyedaData) (info : ComponentInfo) : String × String :=
  (match symbolConvert handlers libNickname d info with
   | .ok s => s
   | .error _ => "",
   getSymbolName info)

/-- `LibraryManager._import_footprint`: convert (text written to the
footprint library), then return the footprint *name*. -/
def importFootprintStep (modTreeAvailable : Bool) (fph : Option FpHandlers)
    (d : EasyedaData) (info : ComponentInfo) : String × String :=
  (match footprintConvert modTreeAvailable fph d info with
   | .ok s => s
   | .error _ => "",
   getFootprintName info)

/-- `LibraryManager.import_component` with `import_3d=False`: the returned
dict, keyed on the import flags.  Note it contains no record of whether a
conversion fell back to a placeholder. -/
def importComponent (handlers : SymbolHandlers) (modTreeAvailable : Bool)
    (fph : Option FpHandlers) (libNickname : String) (d : EasyedaData)
    (info : ComponentInfo) (importSymbol importFootprint : Bool) : ImportResults :=
  let symbolRes := if importSymbol
    then some (importSymbolStep handlers libNickname d info).2 else none
  let footprintRes := if importFootprint
    then some (importFootprintStep modTreeAvailable fph d info).2 else none
  { symbol := symbolRes
    footprint := footprintRes
    model3d := none
    success := (!importSymbol || symbolRes.isSome) &&
      (!importFootprint || footprintRes.isSome)
    errors := [] }

end LcscManager

namespace LcscManager

/-!
## OBJ → WRL conversion (`converters/model_3d_converter.py`)

`Model3DConverter._convert_obj_to_wrl` and its two extraction helpers.
Vertex coordinates are carried as exact rationals and rendered to text at
emission (the source carries them as already-joined strings; the values and
the emitted text coincide).
-/

/-- A material block parsed by `Model3DConverter._extract_obj_materials`
(`Ka`/`Kd`/`Ks` keep the raw fields after the key, `d` the raw transparency
field). -/
structure ObjMaterial where
  ambientColor : Option (List String) := none
  diffuseColor : Option (List String) := none
  specularColor : Option (List String) := none
  transparency : Option String := none
  deriving DecidableEq, Repr

/-- Find the first occurrence of `endmtl`: returns the text before it and the
text after it (the continuation point of the regex scan). -/
def findEndmtl : List Char → Option (List Char × List Char)
  | [] => none
  | c :: rest =>
    if "endmtl".data.isPrefixOf (c :: rest) then some ([], (c :: rest).drop 6)
    else
      match findEndmtl rest with
      | some (body, rem) => some (c :: body, rem)
      | none => none

/-- `re.findall("newmtl .*?endmtl", s, re.DOTALL)`: leftmost, non-greedy,
non-overlapping matches.  Fuelled by the text length so the kernel can
evaluate it. -/
def findMtlBlocksF : Nat → List Char → List (List Char)
  | 0, _ => []
  | _ + 1, [] => []
  | fuel + 1, c :: rest =>
    if "newmtl ".data.isPrefixOf (c :: rest) then
      match findEndmtl ((c :: rest).drop 7) with
      | some (body, rem) =>
        ("newmtl ".data ++ body ++ "endmtl".data) :: findMtlBlocksF fuel rem
      | none => []
    else findMtlBlocksF fuel rest

/-- The material-block matches of `_extract_obj_materials`. -/
def findMtlBlocks (s : String) : List String :=
  (findMtlBlocksF s.data.length s.data).map (fun cs => ⟨cs⟩)

/-- One line of a material block, dispatched on its first characters
(`newmtl` / `Ka` / `Kd` / `Ks` / `d`, in the source's order); the running
state is the current material id and record.  `newmtl` and `d` index field
`[1]` of the space-split line and can raise `IndexError`. -/
def parseMtlLine (st : String × ObjMaterial) (line : String) :
    Except PyErr (String × ObjMaterial) :=
  let fields := (line.data.splitOn ' ').map (fun cs => (⟨cs⟩ : String))
  if pyStartswith line "newmtl" then
    match fields.get? 1 with
    | some v => pure (v, st.2)
    | none => throw PyErr.indexError
  else if pyStartswith line "Ka" then
    pure (st.1, { st.2 with ambientColor := some fields.tail })
  else if pyStartswith line "Kd" then
    pure (st.1, { st.2 with diffuseColor := some fields.tail })
  else if pyStartswith line "Ks" then
    pure (st.1, { st.2 with specularColor := some fields.tail })
  else if pyStartswith line "d" then
    match fields.get? 1 with
    | some v => pure (st.1, { st.2 with transparency := some v })
    | none => throw PyErr.indexError
  else pure st

/-- `Model3DConverter._extract_obj_materials`: parse every matched block and
store it under its material id (dict assignment semantics).  The id starts
unbound in the source; a match always begins with `newmtl `, which binds it
on the first line (the initial `""` here is never kept). -/
def extractObjMaterials (objContent : String) :
    Except PyErr (List (String × ObjMaterial)) :=
  (findMtlBlocks objContent).foldlM (fun mats block => do
    let res ← (pySplitlines block).foldlM parseMtlLine ("", {})
    pure (dictInsert mats res.1 res.2)) []

/-- `re.findall("v (.*?)\n", s, re.DOTALL)`: every occurrence of `v` followed
by a space contributes the text up to the next newline (no newline after it:
no match).  Fuelled by the text length. -/
def findVCapturesF : Nat → List Char → List (List Char)
  | 0, _ => []
  | _ + 1, [] => []
  | fuel + 1, 'v' :: ' ' :: r2 =>
    let cap := r2.takeWhile (fun ch => decide (ch ≠ '\n'))
    if cap.length < r2.length then cap :: findVCapturesF fuel (r2.drop (cap.length + 1))
    else []
  | fuel + 1, _ :: rest => findVCapturesF fuel rest

/-- The captured vertex fields of `_extract_obj_vertices`. -/
def findVCaptures (s : String) : List String :=
  (findVCapturesF s.data.length s.data).map (fun cs => ⟨cs⟩)

/-- Round half-to-even at four decimal places: Python `round(x, 4)` computed
on the exact rational (the IEEE double and the exact value agree on all
inputs in scope; they can differ only when the exact quotient sits within
one double-rounding step of a tie). -/
def roundHalfEven4 (x : ℚ) : ℚ :=
  let scaled := qMul x (mkRat 10000 1)
  let fl : Int := scaled.num.ediv scaled.den
  let fracNum : Int := scaled.num - fl * scaled.den
  let n : Int :=
    if 2 * fracNum < (scaled.den : Int) then fl
    else if (scaled.den : Int) < 2 * fracNum then fl + 1
    else if fl % 2 = 0 then fl else fl + 1
  mkRat n 10000

/-- `Model3DConverter._extract_obj_vertices`: each captured vertex is split
on spaces, each coordinate parsed with `float` and divided by the fixed unit
ratio `2.54`, then rounded to four decimals.  (The source joins the rounded
coordinates back into a string at this point; the embedding keeps the values
and renders them at emission, see `vertexStr`.) -/
def extractObjVertices (objContent : String) : Except PyErr (List (List ℚ)) :=
  (findVCaptures objContent).mapM (fun vertex =>
    ((vertex.data.splitOn ' ').map (fun cs => (⟨cs⟩ : String))).mapM (fun coord => do
      let q ← pyFloat coord
      pure (roundHalfEven4 (qDiv q (mkRat 254 100)))))

/-- Python `str()` of a float whose value is an exact four-decimal rational
(the form `round(x, 4)` produces): sign, integer part, `.`, fraction digits
without trailing zeros (`.0` when the value is integral).  The
scientific-notation thresholds of `str` (`|x| ≥ 1e16`, `0 < |x| < 1e-4`) are
outside the coordinate magnitudes in scope, as is the `-0.0` artefact. -/
def pyFloatRepr (q : ℚ) : String :=
  let sign := if q.num < 0 then "-" else ""
  let na := q.num.natAbs
  let scale := 10000 / q.den
  let scaled := na * scale
  let ip := scaled / 10000
  let fp := scaled % 10000
  if fp = 0 then sign ++ toString ip ++ ".0"
  else
    let fs := toString fp
    let padded : String := ⟨List.replicate (4 - fs.length) '0' ++ fs.data⟩
    let trimmed : String := ⟨(padded.data.reverse.dropWhile (fun c => c = '0')).reverse⟩
    sign ++ toString ip ++ "." ++ trimmed

/-- A vertex rendered as in `_extract_obj_vertices`'s join. -/
def vertexStr (v : List ℚ) : String :=
  String.intercalate " " (v.map pyFloatRepr)

/-- `line.replace("//", "").split(" ")[1:]` filtered and parsed:
the vertex references of one face directive. -/
def parseFaceLine (line : String) : Except PyErr (List Int) :=
  let cleaned := deleteDoubleSlash line.data
  let parts := ((cleaned.splitOn ' ').map (fun cs => (⟨cs⟩ : String))).tail
  (parts.filter (fun idx => !(pyStripS idx).isEmpty)).mapM pyInt

/-- The per-group accumulation state of the face loop in
`_convert_obj_to_wrl`: `link_dict`, `index_counter`, `coord_index`,
`points`. -/
structure GState where
  linkDict : List (Int × Nat) := []
  counter : Nat := 0
  coordIndex : List String := []
  points : List (List ℚ) := []
  deriving DecidableEq, Repr

/-- `index in link_dict` / `link_dict[index]`. -/
def assocFind (d : List (Int × Nat)) (k : Int) : Option Nat :=
  (d.find? (fun kv => kv.1 = k)).map (fun kv => kv.2)

/-- One reference of one face: an unseen global index receives the next
local index and appends `vertices[index - 1]` to the point list; a seen
index reuses its assigned local index.  The second component accumulates the
face's local index strings (`face_index`). -/
def faceStep (vertices : List (List ℚ)) (acc : GState × List String) (index : Int) :
    Except PyErr (GState × List String) :=
  match assocFind acc.1.linkDict index with
  | none => do
    let coord ← pyGetItem vertices (index - 1)
    pure ({ acc.1 with
              linkDict := acc.1.linkDict ++ [(index, acc.1.counter)],
              points := acc.1.points ++ [coord],
              counter := acc.1.counter + 1 },
          acc.2 ++ [toString acc.1.counter])
  | some li => pure (acc.1, acc.2 ++ [toString li])

/-- Process the references of one face (see `faceStep`); the face's local
index list is terminated with `-1` and appended (comma-joined, with a
trailing comma) to `coord_index`. -/
def processFace (vertices : List (List ℚ)) (st : GState) (refs : List Int) :
    Except PyErr GState := do
  let res ← refs.foldlM (faceStep vertices) (st, [])
  pure { res.1 with
           coordIndex := res.1.coordIndex ++
             [String.intercalate "," (res.2 ++ ["-1"]) ++ ","] }

/-- One line of the face loop (`for line in lines[1:]`): only a non-empty
line starting with `f ` contributes. -/
def groupLineStep (vertices : List (List ℚ)) (st : GState) (line : String) :
    Except PyErr GState :=
  if line.data ≠ [] ∧ pyStartswith line "f " then do
    let refs ← parseFaceLine line
    processFace vertices st refs
  else pure st

/-- The face loop over a group's lines (see `groupLineStep`). -/
def processGroupFaces (vertices : List (List ℚ)) (faceLines : List String) :
    Except PyErr GState :=
  faceLines.foldlM (groupLineStep vertices) {}

/-- The `shape_str` template (`textwrap.dedent` applied to the f-string of
`_convert_obj_to_wrl`; the common 12-space indent is already removed here,
and the tab of the `material` line is kept).  Note the `transparency 0`
constant. -/
def wrlShapeText (diffuseColor specularColor pointsJoined coordIndexJoined : String) :
    String :=
  "\nShape\x7b\n    appearance Appearance \x7b\n        material  Material \t\x7b\n" ++
  "            diffuseColor " ++ diffuseColor ++ "\n" ++
  "            specularColor " ++ specularColor ++ "\n" ++
  "            ambientIntensity 0.2\n            " ++ "transparency 0" ++
  "\n            shininess 0.5\n        \x7d\n    \x7d\n" ++
  "    geometry IndexedFaceSet \x7b\n        ccw TRUE\n        solid FALSE\n" ++
  "        coord DEF co Coordinate \x7b\n            point [\n                " ++
  pointsJoined ++ "\n            ]\n        \x7d\n        coordIndex [\n            " ++
  coordIndexJoined ++ "\n        ]\n    \x7d\n\x7d"

/-- The appearance/geometry node built for one face group: colors from the
material (with the source's defaults), the point list and the face-index
list. -/
def materialShapeText (material : ObjMaterial) (pointsJoined coordIndexJoined : String) :
    String :=
  wrlShapeText
    (String.intercalate " " (material.diffuseColor.getD ["0.8", "0.8", "0.8"]))
    (String.intercalate " " (material.specularColor.getD ["0.5", "0.5", "0.5"]))
    pointsJoined coordIndexJoined

/-- One face group of `_convert_obj_to_wrl`: name on the first line, material
lookup (unknown material: skip), face loop, empty point list: skip, trailing
point duplication via `points.insert(-1, points[-1])`, then the shape node
text. -/
def emitGroup (vertices : List (List ℚ)) (materials : List (String × ObjMaterial))
    (shape : String) : Except PyErr String := do
  match pySplitlines shape with
  | [] => pure ""
  | first :: rest =>
    let materialName := pyStripS first
    match dictFind materials materialName with
    | none => pure ""
    | some material => do
      let st ← processGroupFaces vertices rest
      if st.points = [] then pure ""
      else do
        let last ← pyGetItem st.points (-1)
        let points := pyInsertNeg1 st.points last
        pure (materialShapeText material
          (String.intercalate ", " (points.map vertexStr))
          (String.join st.coordIndex))

/-- The fixed WRL header of `_convert_obj_to_wrl`. -/
def wrlHeader : String :=
  "#VRML V2.0 utf8\n# 3D model generated by kicad-lcsc-manager\n# Based on easyeda2kicad.py\n"

/-- The body of `Model3DConverter._convert_obj_to_wrl` (inside its `try`):
materials, vertices, then one emitted node per `usemtl` group. -/
def convertObjToWrlE (objContent : String) : Except PyErr String := do
  let materials ← extractObjMaterials objContent
  let vertices ← extractObjVertices objContent
  let shapes := (splitUsemtl objContent).tail
  let body ← shapes.foldlM (fun acc shape => do
    let t ← emitGroup vertices materials shape
    pure (acc ++ t)) ""
  pure (wrlHeader ++ body)

/-- `Model3DConverter._convert_obj_to_wrl`: any exception reaching the outer
handler makes the whole conversion return `None`. -/
def convertObjToWrl (objContent : String) : Option String :=
  match convertObjToWrlE objContent with
  | .ok s => some s
  | .error _ => none

end LcscManager

namespace LcscManager

/-- The drawing text one line of the symbol handler loop contributes: empty
for unknown opcodes and for raising handlers, the handler's text otherwise. -/
def symbolLineContribution (handlers : SymbolHandlers) (tr : ℚ × ℚ) (line : String) :
    String :=
  match (line.data.splitOn '~').map (fun cs => (⟨cs⟩ : String)) with
  | [] => ""
  | model :: rest =>
    match handlers model with
    | some h =>
      match h rest tr with
      | .ok t => t
      | .error _ => ""
    | none => ""

end LcscManager

namespace LcscManager

/-!
## Specification-side vocabulary and invariants for the per-group
vertex deduplication (claim C5)
-/

/-- The local index assignment built from a first-occurrence list: element
`i` of the list is mapped to local index `start + i`. -/
def linkSpec (seen : List Int) (start : Nat) : List (Int × Nat) :=
  match seen with
  | [] => []
  | r :: rest => (r, start) :: linkSpec rest (start + 1)

/-- Append the not-yet-seen elements of `refs`, in order, to `seen`. -/
def foApp (seen refs : List Int) : List Int :=
  refs.foldl (fun s r => if r ∈ s then s else s ++ [r]) seen

/-- The distinct references of a list, in first-occurrence order. -/
def firstOccur (refs : List Int) : List Int := foApp [] refs

/-- The face references a group's line list supplies, in order (parse
failures contribute nothing; on the success path of `processGroupFaces`
every processed line parses). -/
def faceRefsOf (lines : List String) : List Int :=
  lines.flatMap (fun line =>
    if line.data ≠ [] ∧ pyStartswith line "f " then
      (parseFaceLine line).toOption.getD []
    else [])

/-- The state invariant of the face loop: the link dict assigns local
indices `0, 1, …` to the seen references in first-occurrence order, the
counter is the number of seen references, and the point list is exactly the
resolved coordinate of each seen reference, in that order. -/
def GInvar (vertices : List (List ℚ)) (seen : List Int) (st : GState) : Prop :=
  seen.Nodup ∧
  st.linkDict = linkSpec seen 0 ∧
  st.counter = seen.length ∧
  seen.mapM (fun r => pyGetItem vertices (r - 1)) = Except.ok st.points

end LcscManager

namespace LcscManager

lemma replaceChar_append (a b : List Char) (p : Char) (r : List Char) :
    replaceChar (a ++ b) p r = replaceChar a p r ++ replaceChar b p r := by
  simp [replaceChar]

lemma sanitizeList_append (a b : List Char) :
    sanitizeList (a ++ b) = sanitizeList a ++ sanitizeList b := by
  simp [sanitizeList, replaceChar_append]

lemma sanitizeList_single (c : Char) : sanitizeList [c] = sanitizeChar c := by
  by_cases h1 : c = ' '
  · subst h1; decide
  by_cases h2 : c = '.'
  · subst h2; decide
  by_cases h3 : c = '/'
  · subst h3; decide
  by_cases h4 : c = '\\'
  · subst h4; decide
  by_cases h5 : c = '<'
  · subst h5; decide
  by_cases h6 : c = '>'
  · subst h6; decide
  by_cases h7 : c = ':'
  · subst h7; decide
  by_cases h8 : c = '"'
  · subst h8; decide
  simp [sanitizeList, replaceChar, sanitizeChar, h1, h2, h3, h4, h5, h6, h7, h8]

lemma sanitizeList_eq_flatMap (s : List Char) :
    sanitizeList s = s.flatMap sanitizeChar := by
  induction s with
  | nil => rfl
  | cons c t ih =>
    have h : (c :: t) = [c] ++ t := rfl
    rw [h, sanitizeList_append, sanitizeList_single, ih]
    simp

lemma sanitizeChar_ne_nil (c : Char) : sanitizeChar c ≠ [] := by
  unfold sanitizeChar; split_ifs <;> simp

lemma sanitizeChar_special {c : Char} (h : c ∈ bracketSpecials) :
    ∃ l, sanitizeChar c = '{' :: sigChar c :: l := by
  simp only [bracketSpecials, List.mem_cons, List.mem_singleton] at h
  rcases h with rfl | rfl | rfl | rfl | rfl | rfl | h
  · exact ⟨_, rfl⟩
  · exact ⟨_, rfl⟩
  · exact ⟨_, rfl⟩
  · exact ⟨_, rfl⟩
  · exact ⟨_, rfl⟩
  · exact ⟨_, rfl⟩
  · cases h

lemma sanitizeChar_nonspecial {c : Char} (h1 : c ≠ ' ') (h2 : c ≠ '.')
    (h : c ∉ bracketSpecials) : sanitizeChar c = [c] := by
  simp only [bracketSpecials, List.mem_cons, List.mem_singleton, not_or] at h
  obtain ⟨h3, h4, h5, h6, h7, h8⟩ := h
  simp [sanitizeChar, h1, h2, h3, h4, h5, h6, h7, h8]

lemma sigChar_inj : ∀ c₁ ∈ bracketSpecials, ∀ c₂ ∈ bracketSpecials,
    sigChar c₁ = sigChar c₂ → c₁ = c₂ := by decide

lemma flatMap_sanitizeChar_inj :
    ∀ s₁ s₂ : List Char, (∀ c ∈ s₁, allowedChar c) → (∀ c ∈ s₂, allowedChar c) →
      s₁.flatMap sanitizeChar = s₂.flatMap sanitizeChar → s₁ = s₂ := by
  intro s₁
  induction s₁ with
  | nil =>
    intro s₂ _ h₂ E
    cases s₂ with
    | nil => rfl
    | cons c t =>
      exfalso
      rw [List.flatMap_cons] at E
      exact sanitizeChar_ne_nil c (List.append_eq_nil.mp E.symm).1
  | cons c₁ t₁ ih =>
    intro s₂ h₁ h₂ E
    cases s₂ with
    | nil =>
      exfalso
      rw [List.flatMap_cons] at E
      exact sanitizeChar_ne_nil c₁ (List.append_eq_nil.mp E).1
    | cons c₂ t₂ =>
      rw [List.flatMap_cons, List.flatMap_cons] at E
      have hc : c₁ = c₂ := by
        by_cases hs₁ : c₁ ∈ bracketSpecials <;> by_cases hs₂ : c₂ ∈ bracketSpecials
        · obtain ⟨l₁, e₁⟩ := sanitizeChar_special hs₁
          obtain ⟨l₂, e₂⟩ := sanitizeChar_special hs₂
          rw [e₁, e₂] at E
          simp only [List.cons_append, List.cons.injEq] at E
          exact sigChar_inj c₁ hs₁ c₂ hs₂ E.2.1
        · obtain ⟨l₁, e₁⟩ := sanitizeChar_special hs₁
          have a₂ := h₂ c₂ (List.mem_cons_self c₂ t₂)
          rw [e₁, sanitizeChar_nonspecial a₂.2.2.1 a₂.2.2.2.1 hs₂] at E
          simp only [List.cons_append, List.cons.injEq] at E
          exact absurd E.1.symm a₂.2.2.2.2.1
        · obtain ⟨l₂, e₂⟩ := sanitizeChar_special hs₂
          have a₁ := h₁ c₁ (List.mem_cons_self c₁ t₁)
          rw [e₂, sanitizeChar_nonspecial a₁.2.2.1 a₁.2.2.2.1 hs₁] at E
          simp only [List.cons_append, List.cons.injEq] at E
          exact absurd E.1 a₁.2.2.2.2.1
        · have a₁ := h₁ c₁ (List.mem_cons_self c₁ t₁)
          have a₂ := h₂ c₂ (List.mem_cons_self c₂ t₂)
          rw [sanitizeChar_nonspecial a₁.2.2.1 a₁.2.2.2.1 hs₁,
            sanitizeChar_nonspecial a₂.2.2.1 a₂.2.2.2.1 hs₂] at E
          simp only [List.cons_append, List.cons.injEq] at E
          exact E.1
      subst hc
      have E' : t₁.flatMap sanitizeChar = t₂.flatMap sanitizeChar :=
        List.append_cancel_left E
      have ht : t₁ = t₂ :=
        ih t₂ (fun c hc => h₁ c (List.mem_cons_of_mem _ hc))
          (fun c hc => h₂ c (List.mem_cons_of_mem _ hc)) E'
      rw [ht]

end LcscManager

namespace LcscManager

lemma parseShapeLine_unknown (tr : ℚ × ℚ) (line : String)
    (h : lineOpcode line ∉ knownOpcodes) : parseShapeLine tr line = none := by
  unfold parseShapeLine
  unfold lineOpcode at h
  simp only [knownOpcodes, List.mem_cons, List.mem_singleton, not_or] at h
  cases hL : (line.data.splitOn '~').map (fun cs => (⟨cs⟩ : String)) with
  | nil => rfl
  | cons ty rest =>
    rw [hL] at h
    simp only [List.headD_cons] at h
    obtain ⟨h1, h2, h3, h4, h5, -⟩ := h
    simp [h1, h2, h3, h4, h5]

/-- Replacing one element by one that maps to `none` is the same as erasing
it, for `filterMap`. -/
lemma filterMap_set_none {α β : Type} (f : α → Option β) :
    ∀ (l : List α) (i : Nat) (g : α), f g = none →
      (l.set i g).filterMap f = (l.eraseIdx i).filterMap f := by
  intro l
  induction l with
  | nil => intro i g _; simp
  | cons c t ih =>
    intro i g hg
    cases i with
    | zero => simp [List.filterMap_cons, hg]
    | succ j =>
      simp only [List.set_cons_succ, List.eraseIdx_cons_succ, List.filterMap_cons]
      rw [ih j g hg]

end LcscManager

namespace LcscManager

lemma strEmpty_append (s : String) : "" ++ s = s := by
  cases s with
  | mk d => rfl

lemma strJoin_factor :
    ∀ (l : List String) (a : String),
      l.foldl (fun r s => r ++ s) a = a ++ l.foldl (fun r s => r ++ s) "" := by
  intro l
  induction l with
  | nil => intro a; simp
  | cons x xs ih =>
    intro a
    simp only [List.foldl_cons, strEmpty_append]
    rw [ih (a ++ x), ih x]
    simp [String.append_assoc]

lemma symbolDrawingLoop_eq_join (handlers : SymbolHandlers) (tr : ℚ × ℚ) :
    ∀ (shape : List String) (acc : String),
      shape.foldl (fun acc line =>
        match (line.data.splitOn '~').map (fun cs => (⟨cs⟩ : String)) with
        | [] => acc
        | model :: rest =>
          match handlers model with
          | some h =>
            match h rest tr with
            | .ok t => acc ++ t
            | .error _ => acc
          | none => acc) acc =
      acc ++ String.join (shape.map (symbolLineContribution handlers tr)) := by
  intro shape
  induction shape with
  | nil => intro acc; simp [String.join]
  | cons line rest ih =>
    intro acc
    rw [List.foldl_cons, List.map_cons]
    have hstep : (match (line.data.splitOn '~').map (fun cs => (⟨cs⟩ : String)) with
        | [] => acc
        | model :: rest =>
          match handlers model with
          | some h =>
            match h rest tr with
            | .ok t => acc ++ t
            | .error _ => acc
          | none => acc) = acc ++ symbolLineContribution handlers tr line := by
      unfold symbolLineContribution
      cases (line.data.splitOn '~').map (fun cs => (⟨cs⟩ : String)) with
      | nil => simp
      | cons model fields =>
        cases hh : handlers model with
        | none => simp [hh]
        | some f =>
          cases hr : f fields tr with
          | ok t => simp [hh, hr]
          | error e => simp [hh, hr]
    rw [hstep, ih]
    simp only [String.join, List.foldl_cons, strEmpty_append]
    rw [strJoin_factor (List.map (symbolLineContribution handlers tr) rest)
      (symbolLineContribution handlers tr line)]
    simp [String.append_assoc]

end LcscManager

namespace LcscManager

lemma linkSpec_snoc : ∀ (seen : List Int) (r : Int) (start : Nat),
    linkSpec (seen ++ [r]) start = linkSpec seen start ++ [(r, start + seen.length)] := by
  intro seen
  induction seen with
  | nil => intro r start; simp [linkSpec]
  | cons a rest ih =>
    intro r start
    simp only [List.cons_append, linkSpec, List.append_eq, ih, List.length_cons]
    have h : start + 1 + rest.length = start + (rest.length + 1) := by omega
    rw [h]

lemma assocFind_cons (k : Int) (v : Nat) (rest : List (Int × Nat)) (r : Int) :
    assocFind ((k, v) :: rest) r = if k = r then some v else assocFind rest r := by
  by_cases h : k = r
  · simp [assocFind, List.find?, h]
  · simp [assocFind, List.find?, h]

lemma assocFind_linkSpec_none_iff : ∀ (seen : List Int) (start : Nat) (r : Int),
    assocFind (linkSpec seen start) r = none ↔ r ∉ seen := by
  intro seen
  induction seen with
  | nil => intro start r; simp [assocFind, linkSpec]
  | cons a rest ih =>
    intro start r
    rw [show linkSpec (a :: rest) start = (a, start) :: linkSpec rest (start + 1) from rfl,
      assocFind_cons]
    by_cases ha : a = r
    · subst ha
      simp
    · rw [if_neg ha, ih]
      constructor
      · intro h hor
        rw [List.mem_cons] at hor
        rcases hor with h1 | h2
        · exact ha h1.symm
        · exact h h2
      · intro h hr
        exact h (List.mem_cons_of_mem _ hr)

lemma mapM_ok_snoc {α β : Type} (f : α → Except PyErr β) :
    ∀ (l : List α) (ys : List β) (a : α) (b : β),
      l.mapM f = Except.ok ys → f a = Except.ok b →
      (l ++ [a]).mapM f = Except.ok (ys ++ [b]) := by
  intro l
  induction l with
  | nil =>
    intro ys a b hl hab
    rw [List.mapM_nil] at hl
    have hys : ys = [] := by
      simp only [pure, Except.pure] at hl
      exact (Except.ok.inj hl).symm
    subst hys
    rw [List.nil_append, List.mapM_cons, hab, List.mapM_nil]
    rfl
  | cons x xs ih =>
    intro ys a b hl hab
    rw [List.mapM_cons] at hl
    cases hx : f x with
    | error e => rw [hx] at hl; simp [bind, Except.bind] at hl
    | ok y =>
      rw [hx] at hl
      cases hxs : xs.mapM f with
      | error e => rw [hxs] at hl; simp [bind, Except.bind] at hl
      | ok yss =>
        rw [hxs] at hl
        have hys : ys = y :: yss := by
          simp only [bind, Except.bind, pure, Except.pure] at hl
          exact (Except.ok.inj hl).symm
        subst hys
        have hrest := ih yss a b hxs hab
        rw [List.cons_append, List.mapM_cons, hx, hrest]
        rfl

lemma mapM_ok_length {α β : Type} (f : α → Except PyErr β) :
    ∀ (l : List α) (ys : List β), l.mapM f = Except.ok ys → ys.length = l.length := by
  intro l
  induction l with
  | nil =>
    intro ys h
    rw [List.mapM_nil] at h
    have hys : ys = [] := by
      simp only [pure, Except.pure] at h
      exact (Except.ok.inj h).symm
    subst hys
    rfl
  | cons x xs ih =>
    intro ys h
    rw [List.mapM_cons] at h
    cases hx : f x with
    | error e => rw [hx] at h; simp [bind, Except.bind] at h
    | ok y =>
      rw [hx] at h
      cases hxs : xs.mapM f with
      | error e => rw [hxs] at h; simp [bind, Except.bind] at h
      | ok yss =>
        rw [hxs] at h
        have hys : ys = y :: yss := by
          simp only [bind, Except.bind, pure, Except.pure] at h
          exact (Except.ok.inj h).symm
        subst hys
        simp [ih yss hxs]

end LcscManager

namespace LcscManager

lemma exc_bind_ok {ε α β : Type} (a : α) (f : α → Except ε β) :
    (Except.ok a >>= f : Except ε β) = f a := rfl

lemma exc_bind_err {ε α β : Type} (e : ε) (f : α → Except ε β) :
    ((Except.error e : Except ε α) >>= f) = Except.error e := rfl

lemma exc_pure {ε α : Type} (a : α) : (pure a : Except ε α) = Except.ok a := rfl

lemma exc_bind_pure {ε α β : Type} (a : α) (f : α → Except ε β) :
    ((pure a : Except ε α) >>= f) = f a := rfl

lemma strJoin_cons (x : String) (l : List String) :
    String.join (x :: l) = x ++ String.join l := by
  simp only [String.join, List.foldl_cons, strEmpty_append]
  rw [strJoin_factor l x]

lemma foApp_append (seen : List Int) (a b : List Int) :
    foApp seen (a ++ b) = foApp (foApp seen a) b := by
  simp [foApp, List.foldl_append]

lemma processRefs_inv (vertices : List (List ℚ)) :
    ∀ (refs : List Int) (st : GState) (fi : List String) (seen : List Int)
      (res : GState × List String),
      GInvar vertices seen st →
      refs.foldlM (faceStep vertices) (st, fi) = .ok res →
      GInvar vertices (foApp seen refs) res.1 ∧ res.1.coordIndex = st.coordIndex := by
  intro refs
  induction refs with
  | nil =>
    intro st fi seen res hinv h
    rw [List.foldlM_nil] at h
    have hres : res = (st, fi) := by
      simp only [pure, Except.pure] at h
      exact (Except.ok.inj h).symm
    subst hres
    exact ⟨hinv, rfl⟩
  | cons r rest ih =>
    intro st fi seen res hinv h
    obtain ⟨hnd, hld, hcnt, hmap⟩ := hinv
    rw [List.foldlM_cons] at h
    cases hfind : assocFind st.linkDict r with
    | none =>
      have hrn : r ∉ seen := by
        rw [hld] at hfind
        exact (assocFind_linkSpec_none_iff seen 0 r).mp hfind
      simp only [faceStep] at h
      rw [hfind] at h
      cases hget : pyGetItem vertices (r - 1) with
      | error e =>
        rw [hget] at h
        simp [bind, Except.bind] at h
      | ok coord =>
        rw [hget] at h
        simp only [bind, Except.bind, pure, Except.pure] at h
        have hinv' : GInvar vertices (seen ++ [r])
            { st with linkDict := st.linkDict ++ [(r, st.counter)],
                      points := st.points ++ [coord],
                      counter := st.counter + 1 } := by
          refine ⟨?_, ?_, ?_, ?_⟩
          · rw [List.nodup_append]
            exact ⟨hnd, List.nodup_singleton r,
              fun a ha hb => by
                rw [List.mem_singleton] at hb
                subst hb
                exact hrn ha⟩
          · show st.linkDict ++ [(r, st.counter)] = linkSpec (seen ++ [r]) 0
            rw [hld, hcnt, linkSpec_snoc]
            simp
          · show st.counter + 1 = (seen ++ [r]).length
            rw [hcnt]
            simp
          · show (seen ++ [r]).mapM (fun r => pyGetItem vertices (r - 1)) =
              Except.ok (st.points ++ [coord])
            exact mapM_ok_snoc _ seen st.points r coord hmap hget
        have hfo : foApp seen (r :: rest) = foApp (seen ++ [r]) rest := by
          simp [foApp, List.foldl_cons, hrn]
        rw [hfo]
        exact ih { st with linkDict := st.linkDict ++ [(r, st.counter)], points := st.points ++ [coord], counter := st.counter + 1 } (fi ++ [toString st.counter]) (seen ++ [r]) res hinv' h
    | some li =>
      have hrm : r ∈ seen := by
        by_contra hn
        rw [hld, (assocFind_linkSpec_none_iff seen 0 r).mpr hn] at hfind
        cases hfind
      simp only [faceStep] at h
      rw [hfind] at h
      simp only [bind, Except.bind, pure, Except.pure] at h
      have hfo : foApp seen (r :: rest) = foApp seen rest := by
        simp [foApp, List.foldl_cons, hrm]
      rw [hfo]
      exact ih _ _ seen res ⟨hnd, hld, hcnt, hmap⟩ h

lemma processFace_inv (vertices : List (List ℚ)) (st st2 : GState)
    (refs : List Int) (seen : List Int) (hinv : GInvar vertices seen st)
    (h : processFace vertices st refs = .ok st2) :
    GInvar vertices (foApp seen refs) st2 := by
  unfold processFace at h
  cases hf : refs.foldlM (faceStep vertices) (st, []) with
  | error e =>
    rw [hf] at h
    simp [bind, Except.bind] at h
  | ok res =>
    rw [hf] at h
    simp only [bind, Except.bind, pure, Except.pure] at h
    have h2 := (processRefs_inv vertices refs st [] seen res hinv hf).1
    have hst : st2 = { res.1 with
        coordIndex := res.1.coordIndex ++
          [String.intercalate "," (res.2 ++ ["-1"]) ++ ","] } :=
      (Except.ok.inj h).symm
    subst hst
    obtain ⟨a, b, c, d⟩ := h2
    exact ⟨a, b, c, d⟩

lemma groupFold_inv (vertices : List (List ℚ)) :
    ∀ (lines : List String) (st : GState) (seen : List Int) (st2 : GState),
      GInvar vertices seen st →
      lines.foldlM (groupLineStep vertices) st = .ok st2 →
      GInvar vertices (foApp seen (faceRefsOf lines)) st2 := by
  intro lines
  induction lines with
  | nil =>
    intro st seen st2 hinv h
    rw [List.foldlM_nil] at h
    have hst : st2 = st := by
      simp only [pure, Except.pure] at h
      exact (Except.ok.inj h).symm
    subst hst
    simpa [faceRefsOf, foApp] using hinv
  | cons line rest ih =>
    intro st seen st2 hinv h
    rw [List.foldlM_cons] at h
    by_cases hc : line.data ≠ [] ∧ pyStartswith line "f "
    · simp only [groupLineStep, if_pos hc] at h
      cases hp : parseFaceLine line with
      | error e =>
        rw [hp] at h
        simp [bind, Except.bind] at h
      | ok refs =>
        rw [hp] at h
        simp only [bind, Except.bind] at h
        cases hpf : processFace vertices st refs with
        | error e =>
          rw [hpf] at h
          simp [bind, Except.bind] at h
        | ok stm =>
          rw [hpf] at h
          simp only [bind, Except.bind] at h
          have hrefs : faceRefsOf (line :: rest) = refs ++ faceRefsOf rest := by
            simp [faceRefsOf, hc, hp, Except.toOption]
          rw [hrefs, foApp_append]
          exact ih stm (foApp seen refs) st2
            (processFace_inv vertices st stm refs seen hinv hpf) h
    · simp only [groupLineStep, if_neg hc] at h
      simp only [pure, Except.pure, bind, Except.bind] at h
      have hrefs : faceRefsOf (line :: rest) = faceRefsOf rest := by
        simp [faceRefsOf, hc]
      rw [hrefs]
      exact ih st seen st2 hinv h

end LcscManager

namespace LcscManager

/-!
## Face-reference tokenisation (claim C4)

`_convert_obj_to_wrl` parses each face directive with
`line.replace("//", "").split(" ")[1:]`: the `//` separator of a
`vertex//normal` reference is deleted, which concatenates the two numbers
instead of discarding the normal part.  The lemmas below characterise the
tokenisation on both reference forms.
-/

lemma dds_no_slash : ∀ (xs ys : List Char), '/' ∉ xs →
    deleteDoubleSlash (xs ++ ys) = xs ++ deleteDoubleSlash ys := by
  intro xs
  induction xs with
  | nil => intro ys _; rfl
  | cons c xs' ih =>
    intro ys h
    have hc : c ≠ '/' := by
      intro he
      exact h (by rw [he]; exact List.mem_cons_self _ _)
    have hxs' : '/' ∉ xs' := fun hm => h (List.mem_cons_of_mem _ hm)
    cases hxy : xs' ++ ys with
    | nil =>
      obtain ⟨hx, hy⟩ := List.append_eq_nil.mp hxy
      subst hx
      subst hy
      simp [deleteDoubleSlash]
    | cons d t =>
      have h1 : deleteDoubleSlash ((c :: xs') ++ ys) = c :: deleteDoubleSlash (xs' ++ ys) := by
        rw [List.cons_append, hxy]
        simp only [deleteDoubleSlash]
        rw [if_neg (fun hand => hc hand.1)]
      rw [h1, ih ys hxs', List.cons_append]

lemma dds_id (xs : List Char) (h : '/' ∉ xs) : deleteDoubleSlash xs = xs := by
  have h2 := dds_no_slash xs [] h
  simpa [deleteDoubleSlash] using h2

lemma intercalate_cons_cons (a b : List Char) (tl : List (List Char)) :
    List.intercalate [' '] (a :: b :: tl) = a ++ ' ' :: List.intercalate [' '] (b :: tl) := by
  simp [List.intercalate, List.intersperse_cons_cons]

lemma not_mem_intercalate {c : Char} (hc : c ≠ ' ') :
    ∀ ls : List (List Char), (∀ l ∈ ls, c ∉ l) → c ∉ List.intercalate [' '] ls := by
  intro ls
  induction ls with
  | nil =>
    intro _ hmem
    simp [List.intercalate] at hmem
  | cons a tl ih =>
    intro h hmem
    cases tl with
    | nil =>
      have ha : List.intercalate [' '] [a] = a := by simp [List.intercalate]
      rw [ha] at hmem
      exact h a (List.mem_cons_self _ _) hmem
    | cons b tl' =>
      rw [intercalate_cons_cons] at hmem
      rcases List.mem_append.mp hmem with hm | hm
      · exact h a (List.mem_cons_self _ _) hm
      · rcases List.mem_cons.mp hm with he | hm'
        · exact hc he
        · exact ih (fun l hl => h l (List.mem_cons_of_mem _ hl)) hm'

lemma strMk_data (s : String) : (⟨s.data⟩ : String) = s := by
  cases s
  rfl

lemma stripS_keep (tok : String) (h : pyStrip tok.data ≠ []) :
    (!(pyStripS tok).isEmpty) = true := by
  cases hb : (pyStripS tok).isEmpty with
  | false => rfl
  | true =>
    exfalso
    apply h
    have he : pyStripS tok = "" := (String.isEmpty_iff _).mp hb
    have hd : (pyStripS tok).data = [] := by rw [he]
    simpa [pyStripS] using hd

lemma splitOn_f_space (body : List Char) :
    ('f' :: ' ' :: body).splitOn ' ' = ['f'] :: body.splitOn ' ' := by
  show (['f'] ++ ' ' :: body).splitOn ' ' = ['f'] :: body.splitOn ' '
  simp only [List.splitOn]
  exact List.splitOnP_first _ _ (by decide) ' ' (by decide) body

lemma splitOn_single (l : List Char) (h : ' ' ∉ l) : l.splitOn ' ' = [l] := by
  simp only [List.splitOn]
  refine List.splitOnP_eq_single _ _ ?_
  intro x hx hbe
  have hxe : x = ' ' := by simpa using hbe
  exact h (hxe ▸ hx)

lemma mapM_pyInt_tokens : ∀ toks : List (String × Int),
    (∀ p ∈ toks, pyInt p.1 = Except.ok p.2) →
    (toks.map Prod.fst).mapM pyInt = Except.ok (toks.map Prod.snd) := by
  intro toks
  induction toks with
  | nil => intro _; rfl
  | cons p tl ih =>
    intro h
    have hp := h p (List.mem_cons_self _ _)
    have htl := ih (fun q hq => h q (List.mem_cons_of_mem _ hq))
    rw [List.map_cons, List.map_cons, List.mapM_cons, hp, exc_bind_ok, htl, exc_bind_ok,
      exc_pure]

/-- A face line whose references carry no `//` separator parses to exactly
the declared token values (the whole-line form of the `int(idx)` loop on
`line.replace("//", "").split(" ")[1:]`). -/
lemma parseFaceLine_plain_tokens (toks : List (String × Int))
    (h : ∀ p ∈ toks, ' ' ∉ p.1.data ∧ '/' ∉ p.1.data ∧
         pyStrip p.1.data ≠ [] ∧ pyInt p.1 = Except.ok p.2) :
    parseFaceLine ⟨'f' :: ' ' :: List.intercalate [' '] (toks.map (fun q => q.1.data))⟩ =
      Except.ok (toks.map Prod.snd) := by
  cases toks with
  | nil => decide
  | cons p tl =>
    show (((((deleteDoubleSlash
        ('f' :: ' ' :: List.intercalate [' '] ((p :: tl).map (fun q => q.1.data)))).splitOn
        ' ').map (fun cs => (⟨cs⟩ : String))).tail).filter
        (fun idx => !(pyStripS idx).isEmpty)).mapM pyInt =
      Except.ok ((p :: tl).map Prod.snd)
    have hsp : ∀ l ∈ (p :: tl).map (fun q => q.1.data), ' ' ∉ l := by
      intro l hl
      rcases List.mem_map.mp hl with ⟨q, hq, rfl⟩
      exact (h q hq).1
    have hslash : '/' ∉ List.intercalate [' '] ((p :: tl).map (fun q => q.1.data)) := by
      refine not_mem_intercalate (by decide) _ ?_
      intro l hl
      rcases List.mem_map.mp hl with ⟨q, hq, rfl⟩
      exact (h q hq).2.1
    have hdds : deleteDoubleSlash
        ('f' :: ' ' :: List.intercalate [' '] ((p :: tl).map (fun q => q.1.data))) =
        'f' :: ' ' :: List.intercalate [' '] ((p :: tl).map (fun q => q.1.data)) := by
      have h2 := dds_no_slash ['f', ' ']
        (List.intercalate [' '] ((p :: tl).map (fun q => q.1.data))) (by decide)
      rw [dds_id _ hslash] at h2
      simpa only [List.cons_append, List.nil_append] using h2
    have hne : (p :: tl).map (fun q => q.1.data) ≠ [] := by simp
    have hsplit : (List.intercalate [' '] ((p :: tl).map (fun q => q.1.data))).splitOn ' ' =
        (p :: tl).map (fun q => q.1.data) :=
      List.splitOn_intercalate _ ' ' hsp hne
    rw [hdds, splitOn_f_space, hsplit, List.map_cons, List.tail_cons]
    have hmm : ((p :: tl).map (fun q => q.1.data)).map (fun cs => (⟨cs⟩ : String)) =
        (p :: tl).map Prod.fst := by
      rw [List.map_map]
      exact List.map_congr_left (fun q hq => strMk_data q.1)
    rw [hmm]
    have hfil : ((p :: tl).map Prod.fst).filter (fun idx => !(pyStripS idx).isEmpty) =
        (p :: tl).map Prod.fst := by
      refine List.filter_eq_self.mpr ?_
      intro s hs
      rcases List.mem_map.mp hs with ⟨q, hq, rfl⟩
      exact stripS_keep q.1 (h q hq).2.2.1
    rw [hfil]
    exact mapM_pyInt_tokens (p :: tl) (fun q hq => (h q hq).2.2.2)

/-- A face line with a single `vertex//normal` reference parses to the
*concatenation* of the two numbers: `replace("//", "")` deletes only the
separator. -/
lemma parseFaceLine_slash_pair (ta tb : String) (n : Int)
    (hsa : ' ' ∉ ta.data) (hla : '/' ∉ ta.data)
    (hsb : ' ' ∉ tb.data) (hlb : '/' ∉ tb.data)
    (hst : pyStrip (ta.data ++ tb.data) ≠ [])
    (hint : pyInt ⟨ta.data ++ tb.data⟩ = Except.ok n) :
    parseFaceLine ⟨'f' :: ' ' :: (ta.data ++ '/' :: '/' :: tb.data)⟩ = Except.ok [n] := by
  show (((((deleteDoubleSlash
      ('f' :: ' ' :: (ta.data ++ '/' :: '/' :: tb.data))).splitOn
      ' ').map (fun cs => (⟨cs⟩ : String))).tail).filter
      (fun idx => !(pyStripS idx).isEmpty)).mapM pyInt = Except.ok [n]
  have h3 : deleteDoubleSlash ('/' :: '/' :: tb.data) = deleteDoubleSlash tb.data := by
    simp [deleteDoubleSlash]
  have h1 : deleteDoubleSlash ('f' :: ' ' :: (ta.data ++ '/' :: '/' :: tb.data)) =
      'f' :: ' ' :: deleteDoubleSlash (ta.data ++ '/' :: '/' :: tb.data) := by
    simpa using dds_no_slash ['f', ' '] (ta.data ++ '/' :: '/' :: tb.data) (by decide)
  have hdds : deleteDoubleSlash ('f' :: ' ' :: (ta.data ++ '/' :: '/' :: tb.data)) =
      'f' :: ' ' :: (ta.data ++ tb.data) := by
    rw [h1, dds_no_slash ta.data ('/' :: '/' :: tb.data) hla, h3, dds_id tb.data hlb]
  have hs : ' ' ∉ ta.data ++ tb.data := by
    intro hm
    rcases List.mem_append.mp hm with hm1 | hm1
    · exact hsa hm1
    · exact hsb hm1
  rw [hdds, splitOn_f_space, splitOn_single (ta.data ++ tb.data) hs, List.map_cons,
    List.tail_cons, List.map_cons, List.map_nil]
  have hkeep : (!(pyStripS (⟨ta.data ++ tb.data⟩ : String)).isEmpty) = true :=
    stripS_keep ⟨ta.data ++ tb.data⟩ hst
  have hfil : List.filter (fun idx => !(pyStripS idx).isEmpty)
      [(⟨ta.data ++ tb.data⟩ : String)] = [(⟨ta.data ++ tb.data⟩ : String)] := by
    simp only [List.filter_cons, List.filter_nil, hkeep, if_true]
  rw [hfil, List.mapM_cons, hint, exc_bind_ok, List.mapM_nil, exc_bind_pure, exc_pure]

end LcscManager

namespace LcscManager

/-!
## Claim theorems
-/

/-- C1 (counterexample): the claimed injectivity of the shared name
substitution fails — the two distinct printable-ASCII strings `"a b"` and
`"a.b"` sanitize to the same output, because space and `.` are both replaced
by `_`. -/
theorem sanitizeName_space_dot_collision :
    sanitizeName "a b" = sanitizeName "a.b" ∧ ("a b" : String) ≠ "a.b" ∧
    (∀ c ∈ ("a b" : String).data, 32 ≤ c.toNat ∧ c.toNat ≤ 126) ∧
    (∀ c ∈ ("a.b" : String).data, 32 ≤ c.toNat ∧ c.toNat ≤ 126) := by
  refine ⟨by decide, by decide, by decide, by decide⟩

/-- C1 (amended): the shared name substitution is injective on strings of
printable ASCII characters that contain none of space, `.`, `{`, `}` (the
excluded characters are forced by the collisions: space and `.` share the
image `_` with the identity image of `_` itself, and brace characters can
forge substitution tokens such as `{slash}`). -/
theorem sanitizeName_injective_on_allowed :
    ∀ s₁ s₂ : String, (∀ c ∈ s₁.data, allowedChar c) → (∀ c ∈ s₂.data, allowedChar c) →
      sanitizeName s₁ = sanitizeName s₂ → s₁ = s₂ := by
  intro s₁ s₂ h₁ h₂ E
  have hd : s₁.data.flatMap sanitizeChar = s₂.data.flatMap sanitizeChar := by
    have h := congrArg String.data E
    simpa [sanitizeName, sanitizeList_eq_flatMap] using h
  have h := flatMap_sanitizeChar_inj s₁.data s₂.data h₁ h₂ hd
  cases s₁ with
  | mk d₁ =>
    cases s₂ with
    | mk d₂ => exact congrArg String.mk (by simpa using h)

/-- Witness for the amended C1 theorem at the concrete pair
`("a/b", "a/b")`. -/
theorem sanitizeName_injective_on_allowed_witness :
    (∀ c ∈ ("a/b" : String).data, allowedChar c) ∧ ("a/b" : String) = "a/b" :=
  ⟨by decide, sanitizeName_injective_on_allowed "a/b" "a/b" (by decide) (by decide) rfl⟩

/-- C10: mesh vertex unit conversion divides each coordinate by `2.54`: the
vertex line `v 2.54 5.08 0` decodes to the exact coordinates `(1, 2, 0)`,
and through the whole conversion the group's point list renders it as the
local point `1.0 2.0 0.0`. -/
theorem vertex_unit_divisor_round_trip :
    extractObjVertices "v 2.54 5.08 0\n" =
      Except.ok [[mkRat 1 1, mkRat 2 1, mkRat 0 1]] ∧
    containsSub
      ((convertObjToWrl
        "newmtl m\nKd 1 0 0\nendmtl\nv 2.54 5.08 0\nusemtl m\nf 1 1 1\n").getD "").data
      "point [\n                1.0 2.0 0.0".data = true := by
  refine ⟨by decide, by decide⟩

/-- C3 (counterexample): a material block declaring `d 0.5` is parsed with
`transparency = "0.5"`, yet the emitted scene text contains `transparency 0`
and never `transparency 0.5` — the declared transparency is ignored. -/
theorem transparency_declared_but_ignored :
    extractObjMaterials
        "newmtl mtl1\nKd 1 0 0\nd 0.5\nendmtl\nv 0 0 0\nv 2.54 0 0\nv 0 2.54 0\nusemtl mtl1\nf 1 2 3\n" =
      Except.ok [("mtl1", { diffuseColor := some ["1", "0", "0"],
                            transparency := some "0.5" })] ∧
    (convertObjToWrl
        "newmtl mtl1\nKd 1 0 0\nd 0.5\nendmtl\nv 0 0 0\nv 2.54 0 0\nv 0 2.54 0\nusemtl mtl1\nf 1 2 3\n").isSome
      = true ∧
    containsSub
      ((convertObjToWrl
        "newmtl mtl1\nKd 1 0 0\nd 0.5\nendmtl\nv 0 0 0\nv 2.54 0 0\nv 0 2.54 0\nusemtl mtl1\nf 1 2 3\n").getD "").data
      "transparency 0.5".data = false ∧
    containsSub
      ((convertObjToWrl
        "newmtl mtl1\nKd 1 0 0\nd 0.5\nendmtl\nv 0 0 0\nv 2.54 0 0\nv 0 2.54 0\nusemtl mtl1\nf 1 2 3\n").getD "").data
      "transparency 0".data = true := by
  refine ⟨by decide, by decide, by decide, by decide⟩

/-- C3 (amended): the appearance node's transparency is the fixed constant
`0` for every face group: the emitted node text always contains
`transparency 0`, and it does not depend on the material's declared
transparency — materials differing only in transparency yield identical
nodes. -/
theorem shape_transparency_always_zero :
    ∀ (m₁ m₂ : ObjMaterial) (pts ci : String),
      m₁.diffuseColor = m₂.diffuseColor → m₁.specularColor = m₂.specularColor →
      materialShapeText m₁ pts ci = materialShapeText m₂ pts ci ∧
      ∃ pre post : String,
        materialShapeText m₁ pts ci = pre ++ "transparency 0" ++ post := by
  intro m₁ m₂ pts ci hd hs
  refine ⟨by simp [materialShapeText, hd, hs], ?_⟩
  refine ⟨"\nShape\x7b\n    appearance Appearance \x7b\n        material  Material \t\x7b\n" ++
    "            diffuseColor " ++
    (String.intercalate " " (m₁.diffuseColor.getD ["0.8", "0.8", "0.8"])) ++ "\n" ++
    "            specularColor " ++
    (String.intercalate " " (m₁.specularColor.getD ["0.5", "0.5", "0.5"])) ++ "\n" ++
    "            ambientIntensity 0.2\n            ",
    "\n            shininess 0.5\n        \x7d\n    \x7d\n" ++
    "    geometry IndexedFaceSet \x7b\n        ccw TRUE\n        solid FALSE\n" ++
    "        coord DEF co Coordinate \x7b\n            point [\n                " ++
    pts ++ "\n            ]\n        \x7d\n        coordIndex [\n            " ++
    ci ++ "\n        ]\n    \x7d\n\x7d", ?_⟩
  simp only [materialShapeText, wrlShapeText, String.append_assoc]

/-- Witness for the amended C3 theorem at two concrete materials differing
only in their declared transparency. -/
theorem shape_transparency_always_zero_witness :
    ({ diffuseColor := some ["1", "0", "0"], transparency := some "0.5" } :
      ObjMaterial).diffuseColor =
      ({ diffuseColor := some ["1", "0", "0"], transparency := none } :
        ObjMaterial).diffuseColor ∧
    materialShapeText { diffuseColor := some ["1", "0", "0"], transparency := some "0.5" }
        "1.0 2.0 0.0" "0,-1," =
      materialShapeText { diffuseColor := some ["1", "0", "0"], transparency := none }
        "1.0 2.0 0.0" "0,-1," :=
  ⟨rfl,
    (shape_transparency_always_zero
      { diffuseColor := some ["1", "0", "0"], transparency := some "0.5" }
      { diffuseColor := some ["1", "0", "0"], transparency := none }
      "1.0 2.0 0.0" "0,-1," (by decide) (by decide)).1⟩

/-- C7: shape decoding is per-line and total: replacing any one line by a
line whose opcode is unrecognized produces exactly the records of the
remaining lines (the same list as decoding with that line removed), for
every line list, index and replacement. -/
theorem decode_garbage_opcode_independent :
    ∀ (lines : List String) (i : Nat) (g : String) (tr : ℚ × ℚ),
      lineOpcode g ∉ knownOpcodes →
      parseShapes (lines.set i g) tr = parseShapes (lines.eraseIdx i) tr := by
  intro lines i g tr h
  unfold parseShapes
  exact filterMap_set_none _ lines i g (parseShapeLine_unknown tr g h)

/-- Witness for the C7 theorem on a concrete two-line decode with a garbage
opcode substituted for the pin line. -/
theorem decode_garbage_opcode_independent_witness :
    lineOpcode "ZZ~9" ∉ knownOpcodes ∧
    parseShapes (["R~0~0~10~10", "P~5~5~0"].set 1 "ZZ~9") (mkRat 0 1, mkRat 0 1) =
      parseShapes (["R~0~0~10~10", "P~5~5~0"].eraseIdx 1) (mkRat 0 1, mkRat 0 1) :=
  ⟨by decide,
    decode_garbage_opcode_independent ["R~0~0~10~10", "P~5~5~0"] 1 "ZZ~9"
      (mkRat 0 1, mkRat 0 1) (by decide)⟩

/-- C9 (counterexample): a pin record with a missing rotation field decodes
to a rightward pin (rotation defaulted to `0`), not an upward one as
claimed: for `P~5~5` at origin the drawn segment is `(1,1)–(41,1)`, not
`(1,1)–(1,-39)`. -/
theorem pin_missing_rotation_defaults_right :
    parseShapeLine (mkRat 0 1, mkRat 0 1) "P~5~5" =
      some (.pin (mkRat 1 1, mkRat 1 1, mkRat 41 1, mkRat 1 1)) ∧
    (PShape.pin (mkRat 1 1, mkRat 1 1, mkRat 41 1, mkRat 1 1)) ≠
      (PShape.pin (mkRat 1 1, mkRat 1 1, mkRat 1 1, mkRat (-39) 1)) := by
  refine ⟨by decide, by decide⟩

/-- C9 (amended): a decoded pin always points in one of the four cardinal
directions: a declared rotation of `0` maps to right, `90` to down, `180` to
left, and every other declared value (`270` included) to up; a *missing*
rotation field defaults to `0` and therefore maps to right, not up. -/
theorem pin_rotation_cardinal_directions :
    ∀ (a0 a1 : String) (rest : List String) (tr : ℚ × ℚ) (x0 y0 : ℚ),
      pyFloat a0 = .ok x0 → pyFloat a1 = .ok y0 →
      ((rest = [] →
        parsePin (a0 :: a1 :: rest) tr =
          some (.pin (milToPx (qSub x0 tr.1), milToPx (qSub y0 tr.2),
            qAdd (milToPx (qSub x0 tr.1)) (mkRat 40 1), milToPx (qSub y0 tr.2)))) ∧
       ∀ (rs : String) (rrest : List String) (r : ℚ),
         rest = rs :: rrest → pyFloat rs = .ok r →
         ((r = mkRat 0 1 →
            parsePin (a0 :: a1 :: rest) tr =
              some (.pin (milToPx (qSub x0 tr.1), milToPx (qSub y0 tr.2),
                qAdd (milToPx (qSub x0 tr.1)) (mkRat 40 1), milToPx (qSub y0 tr.2)))) ∧
          (r = mkRat 90 1 →
            parsePin (a0 :: a1 :: rest) tr =
              some (.pin (milToPx (qSub x0 tr.1), milToPx (qSub y0 tr.2),
                milToPx (qSub x0 tr.1), qAdd (milToPx (qSub y0 tr.2)) (mkRat 40 1)))) ∧
          (r = mkRat 180 1 →
            parsePin (a0 :: a1 :: rest) tr =
              some (.pin (milToPx (qSub x0 tr.1), milToPx (qSub y0 tr.2),
                qSub (milToPx (qSub x0 tr.1)) (mkRat 40 1), milToPx (qSub y0 tr.2)))) ∧
          (r ≠ mkRat 0 1 → r ≠ mkRat 90 1 → r ≠ mkRat 180 1 →
            parsePin (a0 :: a1 :: rest) tr =
              some (.pin (milToPx (qSub x0 tr.1), milToPx (qSub y0 tr.2),
                milToPx (qSub x0 tr.1), qSub (milToPx (qSub y0 tr.2)) (mkRat 40 1)))))) := by
  intro a0 a1 rest tr x0 y0 hx hy
  constructor
  · intro hrest; subst hrest
    simp [parsePin, hx, hy, Except.toOption]
  · intro rs rrest r hrest hr; subst hrest
    refine ⟨?_, ?_, ?_, ?_⟩
    · intro h0
      simp [parsePin, hx, hy, hr, h0, Except.toOption]
    · intro h90
      simp [parsePin, hx, hy, hr, h90, Except.toOption]
    · intro h180
      simp [parsePin, hx, hy, hr, h180, Except.toOption]
    · intro h0 h90 h180
      rw [show mkRat 0 1 = (0 : ℚ) from by decide] at h0
      rw [show mkRat 90 1 = (90 : ℚ) from by decide] at h90
      rw [show mkRat 180 1 = (180 : ℚ) from by decide] at h180
      simp [parsePin, hx, hy, hr, h0, h90, h180, Except.toOption]

/-- Witness for the amended C9 theorem: a declared rotation of `45` (neither
`0`, `90` nor `180`) maps to up. -/
theorem pin_rotation_cardinal_directions_witness :
    pyFloat "10" = .ok (mkRat 10 1) ∧
    parsePin ["10", "20", "45"] (mkRat 0 1, mkRat 0 1) =
      some (.pin (mkRat 2 1, mkRat 4 1, mkRat 2 1, mkRat (-36) 1)) := by
  refine ⟨by decide, ?_⟩
  have h := (pin_rotation_cardinal_directions "10" "20" ["45"]
    (mkRat 0 1, mkRat 0 1) (mkRat 10 1) (mkRat 20 1) (by decide) (by decide)).2
    "45" [] (mkRat 45 1) rfl (by decide)
  have h2 := h.2.2.2 (by decide) (by decide) (by decide)
  have e : parsePin ["10", "20", "45"] (mkRat 0 1, mkRat 0 1) =
      some (.pin (milToPx (qSub (mkRat 10 1) (mkRat 0 1, mkRat 0 1).1),
        milToPx (qSub (mkRat 20 1) (mkRat 0 1, mkRat 0 1).2),
        milToPx (qSub (mkRat 10 1) (mkRat 0 1, mkRat 0 1).1),
        qSub (milToPx (qSub (mkRat 20 1) (mkRat 0 1, mkRat 0 1).2)) (mkRat 40 1))) := h2
  rw [e]
  decide

end LcscManager

namespace LcscManager

/-- C2 (counterexample): the caller-visible result carries no used-fallback
flag: an input whose symbol conversion falls back (missing `dataStr`) and an
input converted normally produce *identical* `import_component` result
dicts, even though the first returned the bare placeholder text and the
second did not — no component of the result records the fallback. -/
theorem import_result_carries_no_fallback_flag :
    importComponent (fun _ => none) true none "footprints"
        { dataStr := none } {} true false =
      importComponent (fun _ => none) true none "footprints"
        { dataStr := some { shape := some [], head := some { x := some "0", y := some "0" } } }
        {} true false ∧
    symbolConvert (fun _ => none) "footprints" { dataStr := none } {} =
      .ok (createPlaceholderSymbol "Unknown" "U" "Unknown" "" "" "" ""
        "footprints:Unknown_Unknown") ∧
    symbolConvert (fun _ => none) "footprints"
        { dataStr := some { shape := some [], head := some { x := some "0", y := some "0" } } }
        {} ≠
      .ok (createPlaceholderSymbol "Unknown" "U" "Unknown" "" "" "" ""
        "footprints:Unknown_Unknown") := by
  refine ⟨rfl, rfl, by decide⟩

/-- C2 (amended): when symbol encoding falls back (here: missing `dataStr`),
the caller receives only the placeholder document text — a bare string, with
no used-fallback boolean anywhere; the `import_component` result dict is
independent of the CAD data entirely (it records names, success and errors
only), so it cannot inform the caller of the fallback either. -/
theorem fallback_returns_bare_placeholder_text :
    ∀ (handlers : SymbolHandlers) (libNickname : String) (d : EasyedaData)
      (info : ComponentInfo), d.dataStr = none →
      symbolConvert handlers libNickname d info =
        .ok (createPlaceholderSymbol (getSymbolName info) (getReference info)
          (info.description.getD "Unknown") (info.description.getD "")
          (info.datasheet.getD "") (info.manufacturer.getD "")
          (info.lcscId.getD "") (getFootprintReference libNickname info)) ∧
      ∀ (d' : EasyedaData) (mt : Bool) (fph : Option FpHandlers) (s f : Bool),
        importComponent handlers mt fph libNickname d info s f =
          importComponent handlers mt fph libNickname d' info s f := by
  intro handlers nick d info hd
  constructor
  · simp [symbolConvert, createSymbolFromEasyeda, hd]
  · intro d' mt fph s f; rfl

/-- Witness for the amended C2 theorem at a concrete flagless-fallback
input. -/
theorem fallback_returns_bare_placeholder_text_witness :
    ({ dataStr := none } : EasyedaData).dataStr = none ∧
    symbolConvert (fun _ => none) "fp" { dataStr := none } {} =
      .ok (createPlaceholderSymbol (getSymbolName {}) (getReference {})
        ((({} : ComponentInfo)).description.getD "Unknown")
        ((({} : ComponentInfo)).description.getD "")
        ((({} : ComponentInfo)).datasheet.getD "")
        ((({} : ComponentInfo)).manufacturer.getD "")
        ((({} : ComponentInfo)).lcscId.getD "")
        (getFootprintReference "fp" {})) :=
  ⟨rfl, (fallback_returns_bare_placeholder_text (fun _ => none) "fp"
    { dataStr := none } {} rfl).1⟩

/-- C6 (counterexample): a raising handler does *not* cause the placeholder
to be returned: with a handler table whose `R` handler always raises and an
input holding one `R` line, the symbol converter returns the normally
assembled document (with that element skipped), which differs from the
placeholder. -/
theorem raising_handler_returns_converted_not_placeholder :
    symbolConvert (fun op => if op = "R" then some (fun _ _ => .error PyErr.other) else none)
        "footprints"
        { dataStr := some { shape := some ["R~1~2"], head := some { x := some "0", y := some "0" } } }
        {} =
      .ok (completeSymbolText "Unknown" "U" "" "footprints:Unknown_Unknown" "" "" ""
        ("\n    (symbol \"Unknown_1_1\"" ++ "\n    )")) ∧
    completeSymbolText "Unknown" "U" "" "footprints:Unknown_Unknown" "" "" ""
        ("\n    (symbol \"Unknown_1_1\"" ++ "\n    )") ≠
      createPlaceholderSymbol "Unknown" "U" "Unknown" "" "" "" ""
        "footprints:Unknown_Unknown" := by
  refine ⟨rfl, by decide⟩

/-- C6 (amended): the symbol and footprint convert entry points always
return a string value — never an error — for every input; a failure of the
conversion body (missing structure, malformed head coordinates) yields the
placeholder document; and a raising handler is caught per element inside the
drawing loop, contributing nothing for its line while the rest of the
document is assembled normally. -/
theorem convert_never_raises :
    ∀ (handlers : SymbolHandlers) (libNickname : String) (mt : Bool)
      (fph : Option FpHandlers) (d : EasyedaData) (info : ComponentInfo),
      (∃ s, symbolConvert handlers libNickname d info = .ok s) ∧
      (∃ t, footprintConvert mt fph d info = .ok t) ∧
      (∀ err, createSymbolFromEasyeda handlers libNickname d (getSymbolName info)
          (getReference info) info = .error err →
        symbolConvert handlers libNickname d info =
          .ok (createPlaceholderSymbol (getSymbolName info) (getReference info)
            (info.description.getD "Unknown") (info.description.getD "")
            (info.datasheet.getD "") (info.manufacturer.getD "")
            (info.lcscId.getD "") (getFootprintReference libNickname info))) ∧
      (∀ hs err, fph = some hs → mt = true →
        createFootprintFromEasyeda hs d (getFootprintName info) info = .error err →
        footprintConvert mt fph d info =
          .ok (createPlaceholderFootprint (getFootprintName info)
            (info.description.getD "") (info.package.getD "Unknown")
            (info.lcscId.getD ""))) ∧
      (∀ (tr : ℚ × ℚ) (shape : List String),
        symbolDrawingLoop handlers tr shape =
          String.join (shape.map (symbolLineContribution handlers tr))) ∧
      (∀ (tr : ℚ × ℚ) (line : String) (model : String) (fields : List String) f err,
        (line.data.splitOn '~').map (fun cs => (⟨cs⟩ : String)) = model :: fields →
        handlers model = some f → f fields tr = .error err →
        symbolLineContribution handlers tr line = "") := by
  intro handlers nick mt fph d info
  refine ⟨?_, ?_, ?_, ?_, ?_, ?_⟩
  · cases h : createSymbolFromEasyeda handlers nick d (getSymbolName info)
      (getReference info) info with
    | ok s => exact ⟨s, by simp [symbolConvert, h]⟩
    | error e =>
      exact ⟨createPlaceholderSymbol (getSymbolName info) (getReference info)
        (info.description.getD "Unknown") (info.description.getD "")
        (info.datasheet.getD "") (info.manufacturer.getD "")
        (info.lcscId.getD "") (getFootprintReference nick info),
        by simp [symbolConvert, h]⟩
  · cases mt with
    | false => exact ⟨_, rfl⟩
    | true =>
      cases fph with
      | none => exact ⟨_, rfl⟩
      | some hs =>
        cases h : createFootprintFromEasyeda hs d (getFootprintName info) info with
        | ok s => exact ⟨s, by simp [footprintConvert, h]⟩
        | error e =>
          exact ⟨createPlaceholderFootprint (getFootprintName info)
            (info.description.getD "") (info.package.getD "Unknown")
            (info.lcscId.getD ""),
            by simp [footprintConvert, h]⟩
  · intro err herr
    simp [symbolConvert, herr]
  · intro hs err hfph hmt hbody
    subst hfph; subst hmt
    simp [footprintConvert, hbody]
  · intro tr shape
    unfold symbolDrawingLoop
    have h := symbolDrawingLoop_eq_join handlers tr shape ""
    rw [h]
    simp
  · intro tr line model fields f err hsplit hf herr
    unfold symbolLineContribution
    rw [hsplit]
    simp [hf, herr]

/-- Witness for the amended C6 theorem: a missing-`packageDetail` input makes
the footprint body fail and the converter return the placeholder. -/
theorem convert_never_raises_witness :
    (some (fun _ _ => Except.error PyErr.other) :
        Option (List String → FpState → Except PyErr FpState)) =
      some (fun _ _ => Except.error PyErr.other) ∧
    footprintConvert true (some (fun _ => some (fun _ _ => Except.error PyErr.other)))
        { dataStr := none } {} =
      .ok (createPlaceholderFootprint (getFootprintName {})
        ((({} : ComponentInfo)).description.getD "")
        ((({} : ComponentInfo)).package.getD "Unknown")
        ((({} : ComponentInfo)).lcscId.getD "")) :=
  ⟨rfl,
    (convert_never_raises (fun _ => none) "fp" true
      (some (fun _ => some (fun _ _ => Except.error PyErr.other)))
      { dataStr := none } {}).2.2.2.1
      (fun _ => some (fun _ _ => Except.error PyErr.other)) PyErr.valueError
      rfl rfl (by decide)⟩

/-- C8 (counterexample): a *negative* face reference can raise after all:
with a single global vertex, the reference `-1` resolves to position `-2`
from the end, raising `IndexError`, and the whole conversion returns `None`
— refuting "a reference of 0 (or any negative value) raises no error". -/
theorem negative_reference_raises :
    parseFaceLine "f -1" = .ok [-1] ∧
    extractObjVertices "newmtl m\nKd 1 0 0\nendmtl\nv 1 1 1\nusemtl m\nf -1\n" =
      .ok [[mkRat 3937 10000, mkRat 3937 10000, mkRat 3937 10000]] ∧
    convertObjToWrl "newmtl m\nKd 1 0 0\nendmtl\nv 1 1 1\nusemtl m\nf -1\n" = none := by
  refine ⟨by decide, by decide, by decide⟩

/-- C8 (amended): face references are not range-checked: a reference of `0`
resolves to the last global vertex, any reference within `[1-N, 0]` resolves
to a vertex counted from the end, a reference strictly greater than `N`
raises `IndexError` (as does one below `1-N`), and an error escaping a
group's face loop aborts the remaining groups and makes the whole conversion
return `None` rather than skipping the offending group. -/
theorem face_reference_indexing :
    (∀ (l : List (List ℚ)) (h : l ≠ []),
      pyGetItem l ((0 : Int) - 1) = .ok (l.getLast h)) ∧
    (∀ (l : List (List ℚ)) (r : Int), 1 - (l.length : Int) ≤ r → r ≤ 0 →
      ∃ v, pyGetItem l (r - 1) = .ok v ∧
        l.get? (((l.length : Int) + r - 1).toNat) = some v) ∧
    (∀ (l : List (List ℚ)) (r : Int), (l.length : Int) < r →
      pyGetItem l (r - 1) = .error PyErr.indexError) ∧
    (∀ (vertices : List (List ℚ)) (materials : List (String × ObjMaterial))
       (sh : String) (rest : List String) (acc : String) (e : PyErr),
      emitGroup vertices materials sh = .error e →
      (sh :: rest).foldlM (fun acc shape => do
        let t ← emitGroup vertices materials shape
        pure (acc ++ t)) acc = .error e) ∧
    (∀ (obj : String) (e : PyErr),
      convertObjToWrlE obj = .error e → convertObjToWrl obj = none) := by
  refine ⟨?_, ?_, ?_, ?_, ?_⟩
  · intro l h
    have hlen : 0 < l.length := List.length_pos.mpr h
    unfold pyGetItem
    rw [if_neg (by omega), if_pos (by constructor <;> omega)]
    have hidx : l.length - (-((0 : Int) - 1)).toNat = l.length - 1 := by omega
    rw [hidx, ← List.getLast?_eq_get?, List.getLast?_eq_getLast l h]
    rfl
  · intro l r h1 h2
    have hlen : 0 < l.length := by omega
    unfold pyGetItem
    rw [if_neg (by omega), if_pos (by constructor <;> omega)]
    have hidx : l.length - (-(r - 1)).toNat = ((l.length : Int) + r - 1).toNat := by omega
    rw [hidx]
    cases hget : l.get? (((l.length : Int) + r - 1).toNat) with
    | some v => exact ⟨v, rfl, rfl⟩
    | none =>
      exfalso
      have hb := List.get?_eq_none.mp hget
      omega
  · intro l r h
    unfold pyGetItem
    rw [if_neg (by omega), if_neg (by omega)]
    rfl
  · intro vertices materials sh rest acc e h
    rw [List.foldlM_cons]
    simp only [h]
    rfl
  · intro obj e h
    simp [convertObjToWrl, h]

/-- Witness for the amended C8 theorem: reference `0` on a two-vertex list
resolves to the last vertex; reference `3` on it raises; the erroring group
aborts the fold; the erroring conversion returns `None`. -/
theorem face_reference_indexing_witness :
    ([[mkRat 1 1], [mkRat 2 1]] : List (List ℚ)) ≠ [] ∧
    pyGetItem ([[mkRat 1 1], [mkRat 2 1]] : List (List ℚ)) ((0 : Int) - 1) =
      .ok [mkRat 2 1] ∧
    pyGetItem ([[mkRat 1 1], [mkRat 2 1]] : List (List ℚ)) ((3 : Int) - 1) =
      .error PyErr.indexError ∧
    convertObjToWrl "newmtl m\nKd 1 0 0\nendmtl\nv 1 1 1\nusemtl m\nf -1\n" = none := by
  refine ⟨by decide, ?_, ?_, ?_⟩
  · have h := face_reference_indexing.1 [[mkRat 1 1], [mkRat 2 1]] (by decide)
    rw [h]
    decide
  · exact face_reference_indexing.2.2.1 [[mkRat 1 1], [mkRat 2 1]] 3 (by decide)
  · exact face_reference_indexing.2.2.2.2
      "newmtl m\nKd 1 0 0\nendmtl\nv 1 1 1\nusemtl m\nf -1\n" PyErr.indexError (by decide)

end LcscManager

namespace LcscManager

/-- C5: per-group vertex deduplication: on a successful face loop the local
point list is exactly the resolved coordinate of each distinct referenced
global vertex, once, in first-reference order; local indices are assigned
from 0 in that order; `points.insert(-1, points[-1])` appends exactly one
extra copy of the last accumulated point at the end; the global vertex list
is never deduplicated by extraction (its length is the number of vertex
directives); and groups are emitted independently — the document body is the
join of each group's own node text. -/
theorem local_point_list_dedup :
    (∀ (vertices : List (List ℚ)) (faceLines : List String) (st : GState),
      processGroupFaces vertices faceLines = .ok st →
      (firstOccur (faceRefsOf faceLines)).Nodup ∧
      (firstOccur (faceRefsOf faceLines)).mapM (fun r => pyGetItem vertices (r - 1)) =
        Except.ok st.points ∧
      st.linkDict = linkSpec (firstOccur (faceRefsOf faceLines)) 0 ∧
      st.counter = (firstOccur (faceRefsOf faceLines)).length) ∧
    (∀ (pts : List (List ℚ)) (h : pts ≠ []) (last : List ℚ),
      pyGetItem pts (-1 : Int) = .ok last →
      pyInsertNeg1 pts last = pts ++ [last]) ∧
    (∀ (obj : String) (vs : List (List ℚ)),
      extractObjVertices obj = .ok vs → vs.length = (findVCaptures obj).length) ∧
    (∀ (vertices : List (List ℚ)) (materials : List (String × ObjMaterial))
       (shapes : List String) (acc : String),
      shapes.foldlM (fun acc shape => do
        let t ← emitGroup vertices materials shape
        pure (acc ++ t)) acc =
      (do
        let ts ← shapes.mapM (emitGroup vertices materials)
        pure (acc ++ String.join ts))) := by
  refine ⟨?_, ?_, ?_, ?_⟩
  · intro vertices faceLines st h
    have hinit : GInvar vertices [] ({} : GState) := by
      refine ⟨List.nodup_nil, rfl, rfl, ?_⟩
      rw [List.mapM_nil]
      rfl
    have := groupFold_inv vertices faceLines {} [] st hinit h
    obtain ⟨a, b, c, d⟩ := this
    exact ⟨a, d, b, c⟩
  · intro pts h last hget
    have h2 : pyGetItem pts (-1 : Int) = .ok (pts.getLast h) := by
      have hlen : 0 < pts.length := List.length_pos.mpr h
      unfold pyGetItem
      rw [if_neg (by omega), if_pos (by constructor <;> omega)]
      have hidx : pts.length - (-(-1 : Int)).toNat = pts.length - 1 := by omega
      rw [hidx, ← List.getLast?_eq_get?, List.getLast?_eq_getLast pts h]
      rfl
    have hlast : last = pts.getLast h := by
      rw [h2] at hget
      exact (Except.ok.inj hget).symm
    subst hlast
    unfold pyInsertNeg1
    have ht : pts.take (pts.length - 1) = pts.dropLast := by
      rw [List.dropLast_eq_take]
    have hd : pts.drop (pts.length - 1) = [pts.getLast h] := by
      have h1 := List.take_append_drop (pts.length - 1) pts
      have h2' := List.dropLast_append_getLast h
      rw [ht] at h1
      exact List.append_cancel_left (h1.trans h2'.symm)
    rw [ht, hd]
    have hassoc : pts.dropLast ++ pts.getLast h :: [pts.getLast h] =
        (pts.dropLast ++ [pts.getLast h]) ++ [pts.getLast h] := by simp
    rw [hassoc, List.dropLast_append_getLast h]
  · intro obj vs h
    unfold extractObjVertices at h
    have := mapM_ok_length _ (findVCaptures obj) vs h
    exact this
  · intro vertices materials shapes
    induction shapes with
    | nil =>
      intro acc
      rw [List.foldlM_nil, List.mapM_nil]
      simp only [pure, Except.pure, bind, Except.bind]
      rw [String.join]
      simp [List.foldl_nil]
    | cons sh rest ih =>
      intro acc
      rw [List.foldlM_cons, List.mapM_cons]
      cases he : emitGroup vertices materials sh with
      | error e => simp only [he, exc_bind_err]
      | ok t =>
        simp only [he, exc_bind_ok, exc_bind_pure]
        rw [ih (acc ++ t)]
        cases hm : rest.mapM (emitGroup vertices materials) with
        | error e => simp only [hm, exc_bind_err]
        | ok ts =>
          simp only [hm, exc_bind_ok, exc_bind_pure, exc_pure]
          rw [strJoin_cons, String.append_assoc]

/-- Witness for the C5 theorem: a face referencing global vertex 1 three
times yields a single local point (plus the trailing duplicate handled by
the insert clause), local index 0, counter 1. -/
theorem local_point_list_dedup_witness :
    processGroupFaces [[mkRat 1 1, mkRat 2 1, mkRat 0 1]] ["f 1 1 1"] =
      Except.ok { linkDict := [(1, 0)], counter := 1, coordIndex := ["0,0,0,-1,"],
                  points := [[mkRat 1 1, mkRat 2 1, mkRat 0 1]] } ∧
    (firstOccur (faceRefsOf ["f 1 1 1"])).mapM
        (fun r => pyGetItem [[mkRat 1 1, mkRat 2 1, mkRat 0 1]] (r - 1)) =
      Except.ok [[mkRat 1 1, mkRat 2 1, mkRat 0 1]] ∧
    pyInsertNeg1 [[mkRat 1 1, mkRat 2 1, mkRat 0 1]] [mkRat 1 1, mkRat 2 1, mkRat 0 1] =
      [[mkRat 1 1, mkRat 2 1, mkRat 0 1], [mkRat 1 1, mkRat 2 1, mkRat 0 1]] := by
  refine ⟨by decide, ?_, ?_⟩
  · exact (local_point_list_dedup.1 [[mkRat 1 1, mkRat 2 1, mkRat 0 1]]
      ["f 1 1 1"]
      { linkDict := [(1, 0)], counter := 1, coordIndex := ["0,0,0,-1,"],
        points := [[mkRat 1 1, mkRat 2 1, mkRat 0 1]] } (by decide)).2.1
  · have h := local_point_list_dedup.2.1 [[mkRat 1 1, mkRat 2 1, mkRat 0 1]]
      (by decide) [mkRat 1 1, mkRat 2 1, mkRat 0 1] (by decide)
    simpa using h

end LcscManager

namespace LcscManager

/-- C4 (counterexample): the normal part of a `vertex//normal` face
reference is *not* discarded: `line.replace("//", "")` deletes only the two
slashes, so the reference `3//7` parses as the concatenated number `37`, not
as vertex `3`. -/
theorem face_normal_part_concatenated :
    parseFaceLine "f 3//7" = Except.ok [37] ∧
    parseFaceLine "f 3//7" ≠ Except.ok [3] := by
  refine ⟨by decide, by decide⟩

/-- C4 (amended): the face decoder recovers the declared vertex references
exactly when the references carry no normal part; a `vertex//normal`
reference instead yields the single number obtained by deleting the `//`
separator, i.e. the concatenation of the vertex and normal digits. -/
theorem face_decoder_token_recovery :
    (∀ toks : List (String × Int),
      (∀ p ∈ toks, ' ' ∉ p.1.data ∧ '/' ∉ p.1.data ∧
        pyStrip p.1.data ≠ [] ∧ pyInt p.1 = Except.ok p.2) →
      parseFaceLine ⟨'f' :: ' ' :: List.intercalate [' '] (toks.map (fun q => q.1.data))⟩ =
        Except.ok (toks.map Prod.snd)) ∧
    (∀ (ta tb : String) (n : Int),
      ' ' ∉ ta.data → '/' ∉ ta.data → ' ' ∉ tb.data → '/' ∉ tb.data →
      pyStrip (ta.data ++ tb.data) ≠ [] → pyInt ⟨ta.data ++ tb.data⟩ = Except.ok n →
      parseFaceLine ⟨'f' :: ' ' :: (ta.data ++ '/' :: '/' :: tb.data)⟩ = Except.ok [n]) :=
  ⟨parseFaceLine_plain_tokens,
   fun ta tb n h1 h2 h3 h4 h5 h6 => parseFaceLine_slash_pair ta tb n h1 h2 h3 h4 h5 h6⟩

/-- Witness for the amended C4 theorem: the plain face line `f 2 10`
recovers `[2, 10]`; the `//` line `f 12//9` yields the concatenation `129`. -/
theorem face_decoder_token_recovery_witness :
    parseFaceLine ⟨['f', ' ', '2', ' ', '1', '0']⟩ = Except.ok [2, 10] ∧
    parseFaceLine ⟨['f', ' ', '1', '2', '/', '/', '9']⟩ = Except.ok [129] := by
  constructor
  · exact face_decoder_token_recovery.1 [("2", 2), ("10", 10)] (by decide)
  · exact face_decoder_token_recovery.2 "12" "9" 129 (by decide) (by decide) (by decide)
      (by decide) (by decide) (by decide)

end LcscManager
